import Mathlib

/-!
# imgts2dtree: sorting JPEG files into month directories

A shallow embedding of `main.go`.  The file has three layers:

* the error aggregator `errorList` (`add`, `hasError`, `Error`);
* the per-file pipeline `processImage`, written over a record `Sys` of the
  operating-system and library calls it makes, threading the filesystem
  state explicitly and logging every call;
* `main`, its `numCPU` workers and the collector goroutine, as an
  interleaving step function over a process state `Proc`, with Go's
  semantics of unbuffered channels, `close`, `range`, `sync.WaitGroup`,
  `os.Exit` and run-time panics.
-/

namespace Imgts2dtree

/-! ## Errors and the error aggregator -/

/-- A non-nil Go `error`, identified with the text its `Error()` method
returns.  A possibly-nil `error` is an `Option GoError`. -/
structure GoError where
  msg : String
deriving DecidableEq, Repr

/-- The struct `errorList` of the source: `errs []error`. -/
structure errorList where
  errs : List GoError
deriving DecidableEq, Repr

/-- The value `&errorList{}`. -/
def errorList.empty : errorList := ⟨[]⟩

/-- The method `func (e *errorList) add(err error)`: appends unless `err` is nil. -/
def errorList.add (e : errorList) (err : Option GoError) : errorList :=
  match err with
  | some x => { e with errs := e.errs ++ [x] }
  | none => e

/-- The method `func (e *errorList) hasError() bool`: `len(e.errs) > 0`. -/
def errorList.hasError (e : errorList) : Bool :=
  decide (e.errs.length > 0)

/-- Go's `strings.Join`: nothing for an empty slice, the element itself for
a singleton, otherwise the first element followed by `sep` and the next
element, for each further element. -/
def stringsJoin (elems : List String) (sep : String) : String :=
  match elems with
  | [] => ""
  | [a] => a
  | a :: rest => rest.foldl (fun b s => b ++ sep ++ s) a

/-- The method `func (e *errorList) Error() string`: the loop collects the
messages into `msgs`, which is joined with a newline. -/
def errorList.Error (e : errorList) : String :=
  if !e.hasError then ""
  else
    let msgs := e.errs.foldl (fun (msgs : List String) err => msgs ++ [err.msg]) []
    stringsJoin msgs "\n"

/-- Lines 156-158 of `main`: what `main` writes to standard error at the end
of a run, `fmt.Fprintln(os.Stderr, errList.Error())` under `errList.hasError()`. -/
def mainReport (e : errorList) : List String :=
  if e.hasError then [e.Error ++ "\n"] else []

/-- Specification side of the final report: the messages separated by single
newlines, with no separator before the first or after the last. -/
def newlineJoined : List String → String
  | [] => ""
  | [a] => a
  | a :: b :: rest => a ++ "\n" ++ newlineJoined (b :: rest)

/-- Submitting a sequence of errors, one `add` call per error, in order. -/
def addAll (e : errorList) (errs : List GoError) : errorList :=
  errs.foldl (fun l x => l.add (some x)) e

/-! ## Time and month names -/

/-- The part of a `time.Time` the program can observe.  `Time.Month()` always
lies in `1..12`, so the month is stored as an index below twelve. -/
structure Time where
  year : Int
  monthIndex : Fin 12
  day : Nat
  hour : Nat
  minute : Nat
  second : Nat
deriving DecidableEq, Repr

/-- The method `time.Time.Month()`, a number from 1 (January) to 12. -/
def Time.Month (t : Time) : Nat := t.monthIndex.val + 1

/-- The table `longMonthNames` of package `time`. -/
def longMonthNames : List String :=
  ["January", "February", "March", "April", "May", "June",
   "July", "August", "September", "October", "November", "December"]

/-- The method `time.Month.String()`: the English name for 1..12 and a
`%!Month(n)` placeholder for any other number. -/
def Month.String (m : Nat) : String :=
  if 1 ≤ m ∧ m ≤ 12 then longMonthNames.getD (m - 1) ""
  else "%!Month(" ++ toString m ++ ")"

/-! ## The per-file pipeline -/

/-- The struct `processImageArgs` of the source. -/
structure processImageArgs where
  fileName : String
  filePath : String
  outDir : String
deriving DecidableEq, Repr

/-- An open `*os.File`: the path it was opened at and the read offset. -/
structure File where
  path : String
  offset : Nat
deriving DecidableEq, Repr

/-- A detected `*mimetype.MIME`, as the two methods the program calls. -/
structure MIME where
  str : String
  is : String → Bool

/-- A decoded `*exif.Exif`, as the one method the program calls. -/
structure Exif where
  DateTime : Except GoError Time

/-- Calls into the operating system and libraries, as logged by `processImage`. -/
inductive Call where
  | osOpen (path : String)
  | detectReader (path : String)
  | seekStart (path : String)
  | exifDecode (path : String)
  | osMkdirAll (dir : String) (perm : Nat)
  | osRename (oldPath newPath : String)
  | close (path : String)
deriving DecidableEq, Repr

/-- The environment of `processImage`: every function it calls that is not
defined in `main.go`, over a filesystem state `σ`.  Reads observe the state;
`os.MkdirAll` and `os.Rename` return the next state together with their
error result.  `fileAt` observes whether a path leads to a file, that is to
a directory entry that is not a directory, and `sameFile` whether two paths
lead to one and the same existing file: to the same entry, spelled alike or
through a symbolic link to a directory, or to two hard links of one file. -/
structure Sys (σ : Type) where
  osOpen : σ → String → Except GoError File
  detectReader : σ → File → File × Except GoError MIME
  exifDecode : σ → File → Except GoError Exif
  filepathJoin : String → String → String
  osMkdirAll : σ → String → Nat → σ × Option GoError
  osRename : σ → String → String → σ × Option GoError
  fileAt : σ → String → Bool
  sameFile : σ → String → String → Bool

/-- The effect of `f.Seek(0, io.SeekStart)` on the handle. -/
def File.seekStart (f : File) : File := { f with offset := 0 }

/-- What one call of `processImage` leaves behind: the filesystem state, the
calls it made in order, the lines it printed to standard output, and the
returned `error` (`none` for nil). -/
structure Outcome (σ : Type) where
  world : σ
  calls : List Call
  stdout : List String
  err : Option GoError

/-- The mode `0755` passed to `os.MkdirAll`. -/
def dirPerm : Nat := 0o755

/-- The function `processImage` of the source.  Each `fmt.Errorf` is the
concatenation it formats; `%w` prints the wrapped error's message.  The
deferred `f.Close()` is logged last on every path after a successful open. -/
def processImage {σ : Type} (sys : Sys σ) (w : σ) (args : processImageArgs) : Outcome σ :=
  match sys.osOpen w args.filePath with
  | .error err =>
    ⟨w, [.osOpen args.filePath], [],
      some ⟨"failed to open file '" ++ args.fileName ++ "': " ++ err.msg⟩⟩
  | .ok f =>
    match sys.detectReader w f with
    | (_, .error err) =>
      ⟨w, [.osOpen args.filePath, .detectReader f.path, .close f.path], [],
        some ⟨"failed to read MIME type from '" ++ args.fileName ++ "': " ++ err.msg⟩⟩
    | (f1, .ok mimeType) =>
      let f2 := f1.seekStart
      if !mimeType.is "image/jpeg" then
        ⟨w, [.osOpen args.filePath, .detectReader f.path, .seekStart f.path, .close f.path], [],
          some ⟨"ignore '" ++ args.fileName ++ "' because of unsupported MIME type '"
            ++ mimeType.str ++ "'"⟩⟩
      else
        match sys.exifDecode w f2 with
        | .error err =>
          ⟨w, [.osOpen args.filePath, .detectReader f.path, .seekStart f.path,
               .exifDecode f.path, .close f.path], [],
            some ⟨"failed to read EXIF data from '" ++ args.fileName ++ "': " ++ err.msg⟩⟩
        | .ok x =>
          match x.DateTime with
          | .error err =>
            ⟨w, [.osOpen args.filePath, .detectReader f.path, .seekStart f.path,
                 .exifDecode f.path, .close f.path], [],
              some ⟨"failed to get time from EXIF data in '" ++ args.fileName ++ "': "
                ++ err.msg⟩⟩
          | .ok tm =>
            let outDir := sys.filepathJoin args.outDir (Month.String tm.Month)
            match sys.osMkdirAll w outDir dirPerm with
            | (w1, some err) =>
              ⟨w1, [.osOpen args.filePath, .detectReader f.path, .seekStart f.path,
                    .exifDecode f.path, .osMkdirAll outDir dirPerm, .close f.path], [],
                some ⟨"failed to create directory '" ++ outDir ++ "': " ++ err.msg⟩⟩
            | (w1, none) =>
              let outPath := sys.filepathJoin outDir args.fileName
              match sys.osRename w1 args.filePath outPath with
              | (w2, some _) =>
                ⟨w2, [.osOpen args.filePath, .detectReader f.path, .seekStart f.path,
                      .exifDecode f.path, .osMkdirAll outDir dirPerm,
                      .osRename args.filePath outPath, .close f.path], [],
                  some ⟨"failed to move '" ++ args.fileName ++ "' to '" ++ outDir ++ "'"⟩⟩
              | (w2, none) =>
                ⟨w2, [.osOpen args.filePath, .detectReader f.path, .seekStart f.path,
                      .exifDecode f.path, .osMkdirAll outDir dirPerm,
                      .osRename args.filePath outPath, .close f.path],
                  ["Moved '" ++ args.fileName ++ "' to '" ++ outDir ++ "' ...\n"], none⟩

/-- The text `hay` contains the text `needle` (Go's `strings.Contains`). -/
def containsText (hay needle : String) : Prop := needle.data <:+: hay.data

instance (hay needle : String) : Decidable (containsText hay needle) := by
  unfold containsText; infer_instance

/-- What the operating system guarantees about the two mutating calls:
`os.MkdirAll` creates directories only and removes nothing, a failed
`os.Rename` leaves every file where it was, and a successful `os.Rename`
leaves the file at the new path and no file at the old one, unless both
paths led to the same file before the call: `rename(2)` then succeeds
without doing anything. -/
structure Posix {σ : Type} (sys : Sys σ) : Prop where
  mkdirAll_keeps : ∀ w d perm p, sys.fileAt (sys.osMkdirAll w d perm).1 p = sys.fileAt w p
  rename_fail_keeps : ∀ w a b e p, (sys.osRename w a b).2 = some e →
    sys.fileAt (sys.osRename w a b).1 p = sys.fileAt w p
  rename_moves : ∀ w a b, (sys.osRename w a b).2 = none →
    sys.fileAt (sys.osRename w a b).1 b = true ∧
      (sys.sameFile w a b = false → sys.fileAt (sys.osRename w a b).1 a = false)

/-! ## A small concrete filesystem -/

/-- A directory entry for a regular file of the simulated filesystem: its
path, the content type a probe detects, its EXIF block (`none`: no block,
`some none`: a block without the date/time field), and the number of the
file it names; two entries with one number are hard links of one file. -/
structure SimFile where
  path : String
  mime : String
  exif : Option (Option Time)
  inode : Nat
deriving DecidableEq, Repr

/-- The simulated filesystem: regular files, directories, and the
directories whose creation is refused. -/
structure SimFS where
  files : List SimFile
  dirs : List String
  denied : List String
deriving DecidableEq, Repr

/-- Whether a regular file is at `p`. -/
def SimFS.fileAt (w : SimFS) (p : String) : Bool := w.files.any (fun f => f.path == p)

/-- Whether `a` and `b` are entries of one and the same file. -/
def SimFS.sameFile (w : SimFS) (a b : String) : Bool :=
  w.files.any (fun f => f.path == a &&
    w.files.any (fun g => g.path == b && g.inode == f.inode))

/-- Simulated `os.Open`. -/
def SimFS.osOpen (w : SimFS) (p : String) : Except GoError File :=
  if w.fileAt p then .ok ⟨p, 0⟩
  else .error ⟨"open " ++ p ++ ": no such file or directory"⟩

/-- Simulated `mimetype.DetectReader`: reads the header, advancing the offset. -/
def SimFS.detectReader (w : SimFS) (f : File) : File × Except GoError MIME :=
  match w.files.find? (fun sf => sf.path == f.path) with
  | some sf => ({ f with offset := f.offset + 1 }, .ok ⟨sf.mime, fun s => s == sf.mime⟩)
  | none => (f, .error ⟨"read " ++ f.path ++ ": file already closed"⟩)

/-- Simulated `exif.Decode`: decodes from the current offset, so only a
rewound handle yields the block. -/
def SimFS.exifDecode (w : SimFS) (f : File) : Except GoError Exif :=
  match w.files.find? (fun sf => sf.path == f.path) with
  | some sf =>
    if f.offset ≠ 0 then .error ⟨"exif: failed to find exif intro marker"⟩
    else match sf.exif with
      | none => .error ⟨"EOF"⟩
      | some none => .ok ⟨.error ⟨"exif: tag DateTime is not present"⟩⟩
      | some (some t) => .ok ⟨.ok t⟩
  | none => .error ⟨"read " ++ f.path ++ ": file already closed"⟩

/-- Simulated `filepath.Join` of two clean elements. -/
def simJoin (a b : String) : String :=
  if a = "" then b else if b = "" then a else a ++ "/" ++ b

/-- Simulated `os.MkdirAll`: refused on a regular file and on a denied
directory, otherwise the directory exists afterwards. -/
def SimFS.osMkdirAll (w : SimFS) (d : String) (_perm : Nat) : SimFS × Option GoError :=
  if w.fileAt d then (w, some ⟨"mkdir " ++ d ++ ": not a directory"⟩)
  else if d ∈ w.denied then (w, some ⟨"mkdir " ++ d ++ ": permission denied"⟩)
  else if d ∈ w.dirs then (w, none)
  else ({ w with dirs := w.dirs ++ [d] }, none)

/-- Simulated `os.Rename`: fails without a source file or onto a directory;
renaming a file onto an entry of the same file (itself, or a hard link of
it) succeeds and changes nothing; otherwise the entry replaces whatever
regular file was at the new path. -/
def SimFS.osRename (w : SimFS) (a b : String) : SimFS × Option GoError :=
  if !w.fileAt a then (w, some ⟨"rename " ++ a ++ " " ++ b ++ ": no such file or directory"⟩)
  else if b ∈ w.dirs then (w, some ⟨"rename " ++ a ++ " " ++ b ++ ": file exists"⟩)
  else if w.sameFile a b then (w, none)
  else
    (⟨List.map (fun f => if f.path == a then ⟨b, f.mime, f.exif, f.inode⟩ else f)
        (w.files.filter (fun f => f.path != b)), w.dirs, w.denied⟩, none)

/-- The simulated environment of `processImage`. -/
def simSys : Sys SimFS where
  osOpen := SimFS.osOpen
  detectReader := SimFS.detectReader
  exifDecode := SimFS.exifDecode
  filepathJoin := simJoin
  osMkdirAll := SimFS.osMkdirAll
  osRename := SimFS.osRename
  fileAt := SimFS.fileAt
  sameFile := SimFS.sameFile

/-- The instant 2023-06-15 12:00:00. -/
def june15 : Time := ⟨2023, 5, 15, 12, 0, 0⟩

/-- The scenario of the specification: `a.jpg` is a JPEG dated June 2023,
`b.jpg` a JPEG without EXIF block, `c.txt` plain text; `/out` cannot hold
new directories in `simDenied`. -/
def simFiles : List SimFile :=
  [⟨"/in/a.jpg", "image/jpeg", some (some june15), 1⟩,
   ⟨"/in/b.jpg", "image/jpeg", none, 2⟩,
   ⟨"/in/c.txt", "text/plain; charset=utf-8", none, 3⟩,
   ⟨"/in/d.jpg", "image/jpeg", some none, 4⟩]

/-- The scenario with a writable output root. -/
def simWorld : SimFS := ⟨simFiles, ["/in", "/out"], []⟩

/-- The scenario with an output root in which `June` cannot be created. -/
def simDenied : SimFS := ⟨simFiles, ["/in", "/out"], ["/out/June"]⟩

/-- A tree that is already sorted: the input directory is the month
directory of the output root. -/
def simSorted : SimFS :=
  ⟨[⟨"/out/June/a.jpg", "image/jpeg", some (some june15), 1⟩], ["/out", "/out/June"], []⟩

/-- A tree in which `/out/June/a.jpg` is a hard link of `/in/a.jpg`. -/
def simLinked : SimFS :=
  ⟨[⟨"/in/a.jpg", "image/jpeg", some (some june15), 1⟩,
    ⟨"/out/June/a.jpg", "image/jpeg", some (some june15), 1⟩],
   ["/in", "/out", "/out/June"], []⟩

/-- The local `outDir` of `processImage` (line 89): the month directory
below the output root. -/
def destDir {σ : Type} (sys : Sys σ) (args : processImageArgs) (tm : Time) : String :=
  sys.filepathJoin args.outDir (Month.String tm.Month)

/-- The local `outPath` of `processImage` (line 95): the file's new path. -/
def destPath {σ : Type} (sys : Sys σ) (args : processImageArgs) (tm : Time) : String :=
  sys.filepathJoin (destDir sys args tm) args.fileName

/-- Whether a logged call is one of the two that change the filesystem:
the directory creation or the rename. -/
def Call.mutates : Call → Bool
  | .osMkdirAll _ _ => true
  | .osRename _ _ => true
  | _ => false

/-! ## `main`, the workers and the collector -/

/-- An entry of the listing `ioutil.ReadDir` returns, as the two methods of
`os.FileInfo` that `main` calls. -/
structure FileInfo where
  Name : String
  IsDir : Bool
deriving DecidableEq, Repr

/-- Everything `main` takes from outside `main.go`: the environment of
`processImage`, `filepath.Abs` (its error is discarded by `main`),
`ioutil.ReadDir`, `runtime.NumCPU()` and the two parsed flag values. -/
structure Env (σ : Type) where
  sys : Sys σ
  filepathAbs : String → String
  ioutilReadDir : σ → String → Except GoError (List FileInfo)
  numCPU : Nat
  flagInDir : String
  flagOutDir : String

/-- Where `main` stands: before the statement at the named line. -/
inductive MainPc where
  | checkOut
  | setup
  | spawn (i : Nat)
  | spawnCollector
  | readDir
  | feed (rest : List FileInfo)
  | closeTasks
  | closeErrs
  | wait
  | report
deriving DecidableEq, Repr

/-- Where a `processImageAsync` goroutine stands: blocked in the `range`
receive, about to call `processImage`, blocked in `errChan <- err`, or
returned (its deferred `wg.Done()` has run). -/
inductive WorkerPc where
  | recv
  | run (args : processImageArgs)
  | send (err : GoError)
  | exited
deriving DecidableEq, Repr

/-- Where the collector goroutine stands: not yet launched, blocked in the
`range` receive, about to call `errList.add(err)`, or returned. -/
inductive CollectorPc where
  | notStarted
  | recv
  | add (err : GoError)
  | exited
deriving DecidableEq, Repr

/-- The state of the running process.  `exit` is the exit status once the
process has terminated.  The last three fields record history: the tasks
pushed onto `processImageChan`, the tasks `processImage` was called on, and
the errors `processImage` returned, each in order of occurrence. -/
structure Proc (σ : Type) where
  world : σ
  main : MainPc
  outDir : String
  workers : List WorkerPc
  collector : CollectorPc
  tasksClosed : Bool
  errsClosed : Bool
  wg : Nat
  errList : errorList
  stdout : List String
  stderr : List String
  exit : Option Nat
  sent : List processImageArgs
  processed : List processImageArgs
  returned : List GoError

/-- The process at the entry of `main`, after `flag.Parse()`. -/
def Proc.init {σ : Type} (w : σ) : Proc σ :=
  { world := w, main := .checkOut, outDir := "", workers := [], collector := .notStarted,
    tasksClosed := false, errsClosed := false, wg := 0, errList := errorList.empty,
    stdout := [], stderr := [], exit := none, sent := [], processed := [], returned := [] }

/-- One scheduling choice: `main` runs its next statement; `main` hands its
next task to worker `i` over `processImageChan`; worker `i` runs its next
statement; worker `i` hands its error to the collector over `errChan`; the
collector runs its next statement. -/
inductive Action where
  | main
  | hand (i : Nat)
  | worker (i : Nat)
  | pass (i : Nat)
  | collector
deriving DecidableEq, Repr

/-- The task `main` builds for a listing entry (lines 148-149). -/
def mkTask {σ : Type} (env : Env σ) (outDir : String) (fi : FileInfo) : processImageArgs :=
  ⟨fi.Name, env.filepathAbs (env.sys.filepathJoin env.flagInDir fi.Name), outDir⟩

/-- The function `main` of the source after `flag.Parse()`, one statement at
a time: the next statement of `main`, unless it is the channel send of line
149 (see `stepHand`) or blocks (`wg.Wait()` with a positive counter). -/
def main {σ : Type} (env : Env σ) (s : Proc σ) : Option (Proc σ) :=
  match s.main with
  | .checkOut =>
    if env.flagOutDir = "" then
      some { s with stderr := s.stderr ++ ["the output directory is missing\n"], exit := some 1 }
    else some { s with main := .setup }
  | .setup =>
    some { s with outDir := env.filepathAbs env.flagOutDir, wg := s.wg + env.numCPU,
                  main := .spawn 0 }
  | .spawn i =>
    if i < env.numCPU then some { s with workers := s.workers ++ [.recv], main := .spawn (i + 1) }
    else some { s with main := .spawnCollector }
  | .spawnCollector => some { s with collector := .recv, main := .readDir }
  | .readDir =>
    match env.ioutilReadDir s.world env.flagInDir with
    | .error err =>
      some { s with
        stderr := s.stderr ++
          ["failed to reading directory '" ++ env.flagInDir ++ "': " ++ err.msg ++ "\n"],
        exit := some 1 }
    | .ok dir => some { s with main := .feed dir }
  | .feed [] => some { s with main := .closeTasks }
  | .feed (fi :: rest) => if fi.IsDir then some { s with main := .feed rest } else none
  | .closeTasks => some { s with tasksClosed := true, main := .closeErrs }
  | .closeErrs => some { s with errsClosed := true, main := .wait }
  | .wait => if s.wg = 0 then some { s with main := .report } else none
  | .report => some { s with stderr := s.stderr ++ mainReport s.errList, exit := some 0 }

/-- The send `processImageChan <- processImageArgs{...}` of line 149 meeting
the receive of worker `i`. -/
def stepHand {σ : Type} (env : Env σ) (s : Proc σ) (i : Nat) : Option (Proc σ) :=
  match s.main, s.workers[i]? with
  | .feed (fi :: rest), some .recv =>
    if fi.IsDir || s.tasksClosed then none
    else
      let task := mkTask env s.outDir fi
      some { s with workers := s.workers.set i (.run task), main := .feed rest,
                    sent := s.sent ++ [task] }
  | _, _ => none

/-- The function `processImageAsync` of the source, one statement at a time,
for worker `i`: the next statement unless it blocks, that is leaving the
`range` loop once `processImageChan` is closed (the deferred `wg.Done()`
runs), calling `processImage` (the whole call is one step), or panicking in
a send on the closed `errChan`, which ends the process with exit status 2.
The receive of a task and the delivery of an error are `stepHand` and
`stepPass`. -/
def processImageAsync {σ : Type} (env : Env σ) (s : Proc σ) (i : Nat) : Option (Proc σ) :=
  match s.workers[i]? with
  | some .recv =>
    if s.tasksClosed then some { s with workers := s.workers.set i .exited, wg := s.wg - 1 }
    else none
  | some (.run args) =>
    let out := processImage env.sys s.world args
    match out.err with
    | some err =>
      some { s with world := out.world, stdout := s.stdout ++ out.stdout,
                    processed := s.processed ++ [args], returned := s.returned ++ [err],
                    workers := s.workers.set i (.send err) }
    | none =>
      some { s with world := out.world, stdout := s.stdout ++ out.stdout,
                    processed := s.processed ++ [args],
                    workers := s.workers.set i .recv }
  | some (.send _) =>
    if s.errsClosed then
      some { s with stderr := s.stderr ++ ["panic: send on closed channel\n"], exit := some 2 }
    else none
  | _ => none

/-- The send `errChan <- err` of worker `i` meeting the collector's receive. -/
def stepPass {σ : Type} (s : Proc σ) (i : Nat) : Option (Proc σ) :=
  match s.workers[i]?, s.collector with
  | some (.send err), .recv =>
    if s.errsClosed then none
    else some { s with workers := s.workers.set i .recv, collector := .add err }
  | _, _ => none

/-- The next statement of the collector, unless it blocks. -/
def stepCollector {σ : Type} (s : Proc σ) : Option (Proc σ) :=
  match s.collector with
  | .recv => if s.errsClosed then some { s with collector := .exited } else none
  | .add err => some { s with errList := s.errList.add (some err), collector := .recv }
  | _ => none

/-- One step of the process; `none` when the chosen action is not enabled.
Nothing runs after the process has terminated. -/
def step {σ : Type} (env : Env σ) (s : Proc σ) (a : Action) : Option (Proc σ) :=
  if s.exit.isSome then none
  else match a with
    | .main => main env s
    | .hand i => stepHand env s i
    | .worker i => processImageAsync env s i
    | .pass i => stepPass s i
    | .collector => stepCollector s

/-- Running a schedule from a state. -/
def runSched {σ : Type} (env : Env σ) (s : Proc σ) : List Action → Option (Proc σ)
  | [] => some s
  | a :: rest => (step env s a).bind (fun t => runSched env t rest)

/-- The states some schedule reaches from the entry of `main`. -/
def Reachable {σ : Type} (env : Env σ) (w : σ) (s : Proc σ) : Prop :=
  ∃ sched, runSched env (Proc.init w) sched = some s

/-- The tasks the feeding loop of lines 144-150 builds for a listing. -/
def tasksOf {σ : Type} (env : Env σ) (outDir : String) (dir : List FileInfo) :
    List processImageArgs :=
  (dir.filter (fun fi => !fi.IsDir)).map (mkTask env outDir)

/-- The states a schedule reaches from a given state. -/
def Reach {σ : Type} (env : Env σ) (s t : Proc σ) : Prop :=
  ∃ sched, runSched env s sched = some t

/-- Whether `main` has left the feeding loop (it stands at line 152 or later). -/
def MainPc.fed : MainPc → Bool
  | .closeTasks => true
  | .closeErrs => true
  | .wait => true
  | .report => true
  | _ => false

/-- Whether `main` has not yet obtained the listing (it stands at line 138 or before). -/
def MainPc.beforeFeed : MainPc → Bool
  | .checkOut => true
  | .setup => true
  | .spawn _ => true
  | .spawnCollector => true
  | .readDir => true
  | _ => false

/-- The condition of a process that has not obtained a listing, over the
initial filesystem state `w`: `main` is at `ioutil.ReadDir` or before, the
filesystem is untouched, nothing was sent, processed or returned, every
launched worker waits for its first task, both channels are open, the
collector is idle, and the process runs or has ended with status 1. -/
structure ListingInv {σ : Type} (w : σ) (s : Proc σ) : Prop where
  main_early : s.main.beforeFeed = true
  world_eq : s.world = w
  sent_nil : s.sent = []
  processed_nil : s.processed = []
  returned_nil : s.returned = []
  workers_recv : ∀ pc ∈ s.workers, pc = .recv
  tasks_open : s.tasksClosed = false
  errs_open : s.errsClosed = false
  collector_idle : s.collector = .notStarted ∨ s.collector = .recv
  exit_one : s.exit = none ∨ s.exit = some 1

/-- The condition linking the tasks sent so far with the progress of the
feeding loop over the listing `dir`: before the listing the process is as in
`ListingInv`; from line 121 on the local `outDir` is the absolute output
root; inside the loop the tasks sent, followed by the tasks of the remaining
entries, are the tasks of the whole listing; after the loop the tasks sent
are the tasks of the whole listing. -/
structure FeedInv {σ : Type} (env : Env σ) (w : σ) (dir : List FileInfo) (s : Proc σ) :
    Prop where
  outDir_ok : s.main = .checkOut ∨ s.main = .setup ∨
    s.outDir = env.filepathAbs env.flagOutDir
  early : s.main.beforeFeed = true → ListingInv w s
  feeding : ∀ rest, s.main = .feed rest →
    s.sent ++ tasksOf env (env.filepathAbs env.flagOutDir) rest
      = tasksOf env (env.filepathAbs env.flagOutDir) dir
  fed : s.main.fed = true → s.sent = tasksOf env (env.filepathAbs env.flagOutDir) dir

/-- The schedule in which `main` hands `c.txt` to the worker and closes both
channels while the worker is still about to call `processImage`. -/
def schedCloseEarly : List Action :=
  [.main, .main, .main, .main, .main, .main, .main, .hand 0, .main, .main, .main]

/-- The schedule in which the worker's error reaches the collector in time,
the worker exits, and `main` passes `wg.Wait()` before the collector has
called `errList.add`. -/
def schedLateAdd : List Action :=
  [.main, .main, .main, .main, .main, .main, .main, .hand 0, .worker 0, .pass 0,
   .main, .main, .main, .worker 0, .main]

/-- The schedule in which the collector appends the worker's error before
`main` closes the channels, up to `main` standing at the report. -/
def schedReported : List Action :=
  [.main, .main, .main, .main, .main, .main, .main, .hand 0, .worker 0, .pass 0,
   .collector, .main, .main, .main, .worker 0, .main]

/-- The schedule of `main` alone up to and including `ioutil.ReadDir`. -/
def schedListing : List Action := [.main, .main, .main, .main, .main, .main]

/-- The simulated `filepath.Abs`: the paths of the scenarios are absolute and clean. -/
def simAbs (p : String) : String := p

/-- The simulated `ioutil.ReadDir`: the only directory that can be listed is
`/in`, holding a subdirectory and the text file. -/
def simReadDir (_w : SimFS) (d : String) : Except GoError (List FileInfo) :=
  if d = "/in" then .ok [⟨"sub", true⟩, ⟨"c.txt", false⟩]
  else .error ⟨"open " ++ d ++ ": no such file or directory"⟩

/-- A run on one processor over `/in`, writing below `/out`. -/
def simEnv : Env SimFS := ⟨simSys, simAbs, simReadDir, 1, "/in", "/out"⟩

/-- A run whose input directory does not exist. -/
def simEnvNoDir : Env SimFS := ⟨simSys, simAbs, simReadDir, 1, "/nowhere", "/out"⟩

/-! ## The error aggregator: proofs -/

theorem add_some_errs (l : errorList) (e : GoError) : (l.add (some e)).errs = l.errs ++ [e] := rfl

theorem add_none (l : errorList) : l.add none = l := rfl

theorem addAll_errs (l : errorList) (es : List GoError) : (addAll l es).errs = l.errs ++ es := by
  induction es generalizing l with
  | nil => simp [addAll]
  | cons e es ih =>
    have h := ih (l.add (some e))
    simp only [addAll, List.foldl_cons] at h ⊢
    rw [h, add_some_errs]
    simp

theorem collect_msgs (errs : List GoError) (acc : List String) :
    errs.foldl (fun (msgs : List String) err => msgs ++ [err.msg]) acc
      = acc ++ errs.map (fun err => err.msg) := by
  induction errs generalizing acc with
  | nil => simp
  | cons e es ih => simp [ih]

theorem newlineJoined_glue (a b : String) (rest : List String) :
    newlineJoined ((a ++ "\n" ++ b) :: rest) = a ++ "\n" ++ newlineJoined (b :: rest) := by
  cases rest with
  | nil => simp [newlineJoined]
  | cons c r => simp [newlineJoined, String.append_assoc]

theorem foldl_eq_newlineJoined (rest : List String) (a : String) :
    rest.foldl (fun b s => b ++ "\n" ++ s) a = newlineJoined (a :: rest) := by
  induction rest generalizing a with
  | nil => simp [newlineJoined]
  | cons b rest ih => rw [List.foldl_cons, ih, newlineJoined_glue]; rfl

theorem stringsJoin_eq_newlineJoined (msgs : List String) :
    stringsJoin msgs "\n" = newlineJoined msgs := by
  match msgs with
  | [] => rfl
  | [a] => rfl
  | a :: b :: rest => simp only [stringsJoin]; exact foldl_eq_newlineJoined (b :: rest) a

theorem hasError_iff (e : errorList) : e.hasError = true ↔ e.errs ≠ [] := by
  cases e with
  | mk errs => cases errs <;> simp [errorList.hasError]

theorem Error_eq_newlineJoined (e : errorList) :
    e.Error = newlineJoined (e.errs.map (fun err => err.msg)) := by
  cases e with
  | mk errs =>
    cases errs with
    | nil => simp [errorList.Error, errorList.hasError, newlineJoined]
    | cons x xs =>
      simp only [errorList.Error, errorList.hasError, List.length_cons, gt_iff_lt,
        Nat.zero_lt_succ, decide_True, Bool.not_true, Bool.false_eq_true, if_false]
      rw [collect_msgs, stringsJoin_eq_newlineJoined]
      simp

/-- C8: starting from the empty list, submitting any sequence of errors with
one `add` per error leaves `errs` equal to that sequence, in order; each
`add` of an error appends exactly that element at the end and keeps the
earlier elements. -/
theorem C8_add_retains_every_error_in_order (es : List GoError) :
    (addAll errorList.empty es).errs = es ∧
    ∀ (l : errorList) (e : GoError), (l.add (some e)).errs = l.errs ++ [e] := by
  refine ⟨?_, fun l e => rfl⟩
  rw [addAll_errs]
  simp [errorList.empty]

/-- C9: `Error()` is the stored messages in order separated by single
newlines, the empty string for the empty list; `hasError()` holds exactly
for a non-empty list; at the end of a run `main` writes nothing for an empty
list and the joined report, as one `Fprintln`, for a non-empty one: the step
of `main` at line 156 appends to standard error the report of the list as it
then is exactly when `hasError()` holds, nothing otherwise, and ends the
process with status 0; and apart from the two fatal diagnostics (lines 117
and 140) no other statement of `main` writes to standard error. -/
theorem C9_report_is_newline_joined (e : errorList) {σ : Type} (env : Env σ) (s : Proc σ) :
    e.Error = newlineJoined (e.errs.map (fun err => err.msg)) ∧
    errorList.empty.Error = "" ∧
    (e.hasError = true ↔ e.errs ≠ []) ∧
    (mainReport e = [] ↔ e.hasError = false) ∧
    (∀ (x : GoError) (xs : List GoError),
      mainReport ⟨x :: xs⟩ = [newlineJoined ((x :: xs).map (fun err => err.msg)) ++ "\n"]) ∧
    (s.main = .report → s.exit = none →
      step env s .main =
        some { s with
          stderr := s.stderr ++
            (if s.errList.hasError
              then [newlineJoined (s.errList.errs.map (fun err => err.msg)) ++ "\n"]
              else []),
          exit := some 0 }) ∧
    (∀ t, step env s .main = some t → s.main ≠ .checkOut → s.main ≠ .readDir →
      s.main ≠ .report → t.stderr = s.stderr) := by
  refine ⟨Error_eq_newlineJoined e, rfl, hasError_iff e, ?_, ?_, ?_, ?_⟩
  · unfold mainReport
    cases h : e.hasError <;> simp
  · intro x xs
    have h : (errorList.mk (x :: xs)).hasError = true := by simp [errorList.hasError]
    simp only [mainReport, h, if_true, Error_eq_newlineJoined]
  · intro hm hx
    simp only [step, hx, Option.isSome_none, Bool.false_eq_true, if_false, main, hm,
      mainReport, Error_eq_newlineJoined]
  · intro t ht h1 h2 h3
    unfold step at ht
    split at ht
    · simp at ht
    · simp only [main] at ht
      cases hm : s.main with
      | checkOut => exact absurd hm h1
      | readDir => exact absurd hm h2
      | report => exact absurd hm h3
      | setup => rw [hm] at ht; obtain rfl := Option.some.inj ht; rfl
      | spawn i =>
        rw [hm] at ht
        simp only at ht
        split at ht <;> (obtain rfl := Option.some.inj ht; rfl)
      | spawnCollector => rw [hm] at ht; obtain rfl := Option.some.inj ht; rfl
      | feed rest =>
        rw [hm] at ht
        cases rest with
        | nil => obtain rfl := Option.some.inj ht; rfl
        | cons fi rest =>
          simp only at ht
          split at ht
          · obtain rfl := Option.some.inj ht; rfl
          · simp at ht
      | closeTasks => rw [hm] at ht; obtain rfl := Option.some.inj ht; rfl
      | closeErrs => rw [hm] at ht; obtain rfl := Option.some.inj ht; rfl
      | wait =>
        rw [hm] at ht
        simp only at ht
        split at ht
        · obtain rfl := Option.some.inj ht; rfl
        · simp at ht

/-- C9, witness: in the run over `/in` in which the collector appends the
error for `c.txt` in time, `main` stands at the report with that one error
in the list, writes the one line to standard error and ends with status 0. -/
theorem C9_report_is_newline_joined_witness :
    ∃ s t, Reachable simEnv simWorld s ∧ s.main = .report ∧ s.exit = none ∧
      s.errList.errs =
        [⟨"ignore 'c.txt' because of unsupported MIME type 'text/plain; charset=utf-8'"⟩] ∧
      step simEnv s .main = some t ∧
      t.stderr =
        ["ignore 'c.txt' because of unsupported MIME type 'text/plain; charset=utf-8'\n"] ∧
      t.exit = some 0 := by
  have hm : ((runSched simEnv (Proc.init simWorld) schedReported).get (by decide)).main
      = .report := by decide
  have hx : ((runSched simEnv (Proc.init simWorld) schedReported).get (by decide)).exit
      = none := by decide
  have hstep := (C9_report_is_newline_joined errorList.empty simEnv
    ((runSched simEnv (Proc.init simWorld) schedReported).get (by decide))).2.2.2.2.2.1 hm hx
  exact ⟨_, _, ⟨schedReported, by simp⟩, hm, hx, by decide, hstep, by decide, rfl⟩

/-! ## The per-file pipeline: the eight paths through `processImage` -/

section Paths

variable {σ : Type} (sys : Sys σ) (w : σ) (args : processImageArgs)

theorem processImage_open_fails (err : GoError) (h : sys.osOpen w args.filePath = .error err) :
    processImage sys w args =
      ⟨w, [.osOpen args.filePath], [],
        some ⟨"failed to open file '" ++ args.fileName ++ "': " ++ err.msg⟩⟩ := by
  simp [processImage, h]

theorem processImage_probe_fails (f f1 : File) (err : GoError)
    (h : sys.osOpen w args.filePath = .ok f) (hd : sys.detectReader w f = (f1, .error err)) :
    processImage sys w args =
      ⟨w, [.osOpen args.filePath, .detectReader f.path, .close f.path], [],
        some ⟨"failed to read MIME type from '" ++ args.fileName ++ "': " ++ err.msg⟩⟩ := by
  simp [processImage, h, hd]

theorem processImage_unsupported (f f1 : File) (m : MIME)
    (h : sys.osOpen w args.filePath = .ok f) (hd : sys.detectReader w f = (f1, .ok m))
    (hm : m.is "image/jpeg" = false) :
    processImage sys w args =
      ⟨w, [.osOpen args.filePath, .detectReader f.path, .seekStart f.path, .close f.path], [],
        some ⟨"ignore '" ++ args.fileName ++ "' because of unsupported MIME type '"
          ++ m.str ++ "'"⟩⟩ := by
  simp [processImage, h, hd, hm]

theorem processImage_decode_fails (f f1 : File) (m : MIME) (err : GoError)
    (h : sys.osOpen w args.filePath = .ok f) (hd : sys.detectReader w f = (f1, .ok m))
    (hm : m.is "image/jpeg" = true) (hx : sys.exifDecode w f1.seekStart = .error err) :
    processImage sys w args =
      ⟨w, [.osOpen args.filePath, .detectReader f.path, .seekStart f.path,
           .exifDecode f.path, .close f.path], [],
        some ⟨"failed to read EXIF data from '" ++ args.fileName ++ "': " ++ err.msg⟩⟩ := by
  simp [processImage, h, hd, hm, hx]

theorem processImage_no_time (f f1 : File) (m : MIME) (x : Exif) (err : GoError)
    (h : sys.osOpen w args.filePath = .ok f) (hd : sys.detectReader w f = (f1, .ok m))
    (hm : m.is "image/jpeg" = true) (hx : sys.exifDecode w f1.seekStart = .ok x)
    (ht : x.DateTime = .error err) :
    processImage sys w args =
      ⟨w, [.osOpen args.filePath, .detectReader f.path, .seekStart f.path,
           .exifDecode f.path, .close f.path], [],
        some ⟨"failed to get time from EXIF data in '" ++ args.fileName ++ "': "
          ++ err.msg⟩⟩ := by
  simp [processImage, h, hd, hm, hx, ht]

theorem processImage_mkdir_fails (f f1 : File) (m : MIME) (x : Exif) (tm : Time)
    (w1 : σ) (err : GoError)
    (h : sys.osOpen w args.filePath = .ok f) (hd : sys.detectReader w f = (f1, .ok m))
    (hm : m.is "image/jpeg" = true) (hx : sys.exifDecode w f1.seekStart = .ok x)
    (ht : x.DateTime = .ok tm)
    (hk : sys.osMkdirAll w (sys.filepathJoin args.outDir (Month.String tm.Month)) dirPerm
      = (w1, some err)) :
    processImage sys w args =
      ⟨w1, [.osOpen args.filePath, .detectReader f.path, .seekStart f.path, .exifDecode f.path,
            .osMkdirAll (sys.filepathJoin args.outDir (Month.String tm.Month)) dirPerm,
            .close f.path], [],
        some ⟨"failed to create directory '"
          ++ sys.filepathJoin args.outDir (Month.String tm.Month) ++ "': " ++ err.msg⟩⟩ := by
  simp [processImage, h, hd, hm, hx, ht, hk]

theorem processImage_rename_fails (f f1 : File) (m : MIME) (x : Exif) (tm : Time)
    (w1 w2 : σ) (err : GoError)
    (h : sys.osOpen w args.filePath = .ok f) (hd : sys.detectReader w f = (f1, .ok m))
    (hm : m.is "image/jpeg" = true) (hx : sys.exifDecode w f1.seekStart = .ok x)
    (ht : x.DateTime = .ok tm)
    (hk : sys.osMkdirAll w (sys.filepathJoin args.outDir (Month.String tm.Month)) dirPerm
      = (w1, none))
    (hr : sys.osRename w1 args.filePath
      (sys.filepathJoin (sys.filepathJoin args.outDir (Month.String tm.Month)) args.fileName)
      = (w2, some err)) :
    processImage sys w args =
      ⟨w2, [.osOpen args.filePath, .detectReader f.path, .seekStart f.path, .exifDecode f.path,
            .osMkdirAll (sys.filepathJoin args.outDir (Month.String tm.Month)) dirPerm,
            .osRename args.filePath (sys.filepathJoin
              (sys.filepathJoin args.outDir (Month.String tm.Month)) args.fileName),
            .close f.path], [],
        some ⟨"failed to move '" ++ args.fileName ++ "' to '"
          ++ sys.filepathJoin args.outDir (Month.String tm.Month) ++ "'"⟩⟩ := by
  simp [processImage, h, hd, hm, hx, ht, hk, hr]

theorem processImage_moves (f f1 : File) (m : MIME) (x : Exif) (tm : Time) (w1 w2 : σ)
    (h : sys.osOpen w args.filePath = .ok f) (hd : sys.detectReader w f = (f1, .ok m))
    (hm : m.is "image/jpeg" = true) (hx : sys.exifDecode w f1.seekStart = .ok x)
    (ht : x.DateTime = .ok tm)
    (hk : sys.osMkdirAll w (sys.filepathJoin args.outDir (Month.String tm.Month)) dirPerm
      = (w1, none))
    (hr : sys.osRename w1 args.filePath
      (sys.filepathJoin (sys.filepathJoin args.outDir (Month.String tm.Month)) args.fileName)
      = (w2, none)) :
    processImage sys w args =
      ⟨w2, [.osOpen args.filePath, .detectReader f.path, .seekStart f.path, .exifDecode f.path,
            .osMkdirAll (sys.filepathJoin args.outDir (Month.String tm.Month)) dirPerm,
            .osRename args.filePath (sys.filepathJoin
              (sys.filepathJoin args.outDir (Month.String tm.Month)) args.fileName),
            .close f.path],
        ["Moved '" ++ args.fileName ++ "' to '"
          ++ sys.filepathJoin args.outDir (Month.String tm.Month) ++ "' ...\n"], none⟩ := by
  simp [processImage, h, hd, hm, hx, ht, hk, hr]

end Paths

/-! ## Month names -/

set_option maxRecDepth 100000 in
theorem monthName_of_index (i : Fin 12) :
    Month.String (i.val + 1) ∈ longMonthNames ∧
      Month.String (i.val + 1) = longMonthNames.getD i.val "" := by
  revert i
  decide

/-! ## The simulated filesystem obeys the operating-system laws -/

theorem simFS_fileAt_iff (w : SimFS) (p : String) :
    w.fileAt p = true ↔ ∃ f ∈ w.files, f.path = p := by
  simp [SimFS.fileAt, List.any_eq_true]

theorem simFS_sameFile_iff (w : SimFS) (a b : String) :
    w.sameFile a b = true ↔
      ∃ f ∈ w.files, f.path = a ∧ ∃ g ∈ w.files, g.path = b ∧ g.inode = f.inode := by
  simp [SimFS.sameFile, List.any_eq_true]

theorem simSys_posix : Posix simSys where
  mkdirAll_keeps := by
    intro w d perm p
    simp only [simSys, SimFS.osMkdirAll]
    split_ifs <;> rfl
  rename_fail_keeps := by
    intro w a b e p h
    simp only [simSys, SimFS.osRename] at h ⊢
    split_ifs at h ⊢ <;> rfl
  rename_moves := by
    intro w a b h
    simp only [simSys, SimFS.osRename] at h ⊢
    split_ifs at h ⊢ with h1 h2 h3
    · obtain ⟨f, _, _, g, hg, hgb, _⟩ := (simFS_sameFile_iff w a b).1 h3
      refine ⟨(simFS_fileAt_iff w b).2 ⟨g, hg, hgb⟩, fun hne => ?_⟩
      rw [h3] at hne
      cases hne
    · have ha : w.fileAt a = true := by simpa using h1
      obtain ⟨f, hf, hfa⟩ := (simFS_fileAt_iff w a).1 ha
      have hab : a ≠ b := by
        intro hab
        exact h3 ((simFS_sameFile_iff w a b).2 ⟨f, hf, hfa, f, hf, hab ▸ hfa, rfl⟩)
      constructor
      · apply (simFS_fileAt_iff _ b).2
        refine ⟨⟨b, f.mime, f.exif, f.inode⟩, ?_, rfl⟩
        simp only [List.mem_map, List.mem_filter]
        refine ⟨f, ⟨hf, ?_⟩, ?_⟩
        · simp [hfa, hab]
        · simp [hfa]
      · intro _
        cases hc : SimFS.fileAt _ a with
        | false => rfl
        | true =>
          exfalso
          obtain ⟨g, hg, hga⟩ := (simFS_fileAt_iff _ a).1 hc
          simp only [List.mem_map, List.mem_filter] at hg
          obtain ⟨g0, ⟨_, _⟩, hg0⟩ := hg
          by_cases hq : g0.path = a
          · simp [hq] at hg0
            rw [← hg0] at hga
            exact hab hga.symm
          · simp [hq] at hg0
            rw [← hg0] at hga
            exact hq hga

/-! ## Texts -/

theorem containsText_of_eq (hay needle : String) (s t : List Char)
    (h : hay.data = s ++ needle.data ++ t) : containsText hay needle :=
  ⟨s, t, h.symm⟩

/-! ## The per-file pipeline: claims -/

/-- C1, the claim as stated fails: in a tree that is already sorted (input
directory `/out/June`, output root `/out`) the only file is a June JPEG whose
destination `/out/June/a.jpg` is its own path; `processImage` creates the
directory, renames the file onto itself, returns nil, and the file is still
at `filePath`. -/
theorem C1_counterexample_file_already_in_place :
    (processImage simSys simSorted ⟨"a.jpg", "/out/June/a.jpg", "/out"⟩).err = none ∧
    (processImage simSys simSorted ⟨"a.jpg", "/out/June/a.jpg", "/out"⟩).calls =
      [.osOpen "/out/June/a.jpg", .detectReader "/out/June/a.jpg",
       .seekStart "/out/June/a.jpg", .exifDecode "/out/June/a.jpg",
       .osMkdirAll "/out/June" dirPerm,
       .osRename "/out/June/a.jpg" "/out/June/a.jpg", .close "/out/June/a.jpg"] ∧
    simSys.fileAt (processImage simSys simSorted ⟨"a.jpg", "/out/June/a.jpg", "/out"⟩).world
      "/out/June/a.jpg" = true := by
  decide

/-- C1, amended: for a task whose file opens, is detected as image/jpeg and
carries the EXIF date/time `tm`, the month name is one of January..December
fixed by the month of `tm` alone; `processImage` calls `os.MkdirAll` on
`outDir/<month name>` and, once that succeeded, `os.Rename` from `filePath` to
`outDir/<month name>/fileName`; when both succeed it makes exactly these
calls, leaves the filesystem as the rename left it, prints the one line and
returns nil, and the file is at the destination and, unless the destination
already led to the same file as `filePath` (the same path, a hard link or a
spelling through a symbolic link), no longer at `filePath`. -/
theorem C1_moves_file_into_month_directory {σ : Type} (sys : Sys σ) (hP : Posix sys) (w : σ)
    (args : processImageArgs) (f f1 : File) (m : MIME) (x : Exif) (tm : Time)
    (h : sys.osOpen w args.filePath = .ok f) (hd : sys.detectReader w f = (f1, .ok m))
    (hm : m.is "image/jpeg" = true) (hx : sys.exifDecode w f1.seekStart = .ok x)
    (ht : x.DateTime = .ok tm) :
    Month.String tm.Month ∈ longMonthNames ∧
    Month.String tm.Month = longMonthNames.getD tm.monthIndex.val "" ∧
    Call.osMkdirAll (destDir sys args tm) dirPerm ∈ (processImage sys w args).calls ∧
    ((sys.osMkdirAll w (destDir sys args tm) dirPerm).2 = none →
      Call.osRename args.filePath (destPath sys args tm) ∈ (processImage sys w args).calls) ∧
    ((sys.osMkdirAll w (destDir sys args tm) dirPerm).2 = none →
      (sys.osRename (sys.osMkdirAll w (destDir sys args tm) dirPerm).1 args.filePath
        (destPath sys args tm)).2 = none →
      processImage sys w args =
        ⟨(sys.osRename (sys.osMkdirAll w (destDir sys args tm) dirPerm).1 args.filePath
            (destPath sys args tm)).1,
          [.osOpen args.filePath, .detectReader f.path, .seekStart f.path, .exifDecode f.path,
           .osMkdirAll (destDir sys args tm) dirPerm,
           .osRename args.filePath (destPath sys args tm), .close f.path],
          ["Moved '" ++ args.fileName ++ "' to '" ++ destDir sys args tm ++ "' ...\n"],
          none⟩ ∧
      sys.fileAt (processImage sys w args).world (destPath sys args tm) = true ∧
      (sys.sameFile (sys.osMkdirAll w (destDir sys args tm) dirPerm).1 args.filePath
          (destPath sys args tm) = false →
        sys.fileAt (processImage sys w args).world args.filePath = false)) := by
  refine ⟨(monthName_of_index tm.monthIndex).1, (monthName_of_index tm.monthIndex).2, ?_, ?_, ?_⟩
  · cases hk : sys.osMkdirAll w (destDir sys args tm) dirPerm with
    | mk w1 r1 =>
      cases r1 with
      | some err =>
        rw [processImage_mkdir_fails sys w args f f1 m x tm w1 err h hd hm hx ht hk]
        simp [destDir]
      | none =>
        cases hr : sys.osRename w1 args.filePath (destPath sys args tm) with
        | mk w2 r2 =>
          cases r2 with
          | some err =>
            rw [processImage_rename_fails sys w args f f1 m x tm w1 w2 err h hd hm hx ht hk hr]
            simp [destDir]
          | none =>
            rw [processImage_moves sys w args f f1 m x tm w1 w2 h hd hm hx ht hk hr]
            simp [destDir]
  · intro hk2
    cases hk : sys.osMkdirAll w (destDir sys args tm) dirPerm with
    | mk w1 r1 =>
      rw [hk] at hk2
      simp only at hk2
      subst hk2
      cases hr : sys.osRename w1 args.filePath (destPath sys args tm) with
      | mk w2 r2 =>
        cases r2 with
        | some err =>
          rw [processImage_rename_fails sys w args f f1 m x tm w1 w2 err h hd hm hx ht hk hr]
          simp [destPath, destDir]
        | none =>
          rw [processImage_moves sys w args f f1 m x tm w1 w2 h hd hm hx ht hk hr]
          simp [destPath, destDir]
  · intro hk2 hr2
    cases hk : sys.osMkdirAll w (destDir sys args tm) dirPerm with
    | mk w1 r1 =>
      rw [hk] at hk2 hr2
      simp only at hk2 hr2
      subst hk2
      cases hr : sys.osRename w1 args.filePath (destPath sys args tm) with
      | mk w2 r2 =>
        have hmv := hP.rename_moves w1 args.filePath (destPath sys args tm) hr2
        rw [hr] at hr2 hmv
        simp only at hr2 hmv
        subst hr2
        rw [processImage_moves sys w args f f1 m x tm w1 w2 h hd hm hx ht hk hr]
        exact ⟨rfl, hmv.1, hmv.2⟩

/-- C1, witness: `/in/a.jpg`, a JPEG dated June 2023, ends at `/out/June/a.jpg`. -/
theorem C1_moves_file_into_month_directory_witness :
    (processImage simSys simWorld ⟨"a.jpg", "/in/a.jpg", "/out"⟩).err = none ∧
    (processImage simSys simWorld ⟨"a.jpg", "/in/a.jpg", "/out"⟩).calls =
      [.osOpen "/in/a.jpg", .detectReader "/in/a.jpg", .seekStart "/in/a.jpg",
       .exifDecode "/in/a.jpg", .osMkdirAll "/out/June" dirPerm,
       .osRename "/in/a.jpg" "/out/June/a.jpg", .close "/in/a.jpg"] ∧
    simSys.fileAt (processImage simSys simWorld ⟨"a.jpg", "/in/a.jpg", "/out"⟩).world
      "/out/June/a.jpg" = true ∧
    simSys.fileAt (processImage simSys simWorld ⟨"a.jpg", "/in/a.jpg", "/out"⟩).world
      "/in/a.jpg" = false := by
  have hc := C1_moves_file_into_month_directory simSys simSys_posix simWorld
    ⟨"a.jpg", "/in/a.jpg", "/out"⟩ ⟨"/in/a.jpg", 0⟩ ⟨"/in/a.jpg", 1⟩
    ⟨"image/jpeg", fun s => s == "image/jpeg"⟩ ⟨.ok june15⟩ june15 rfl rfl rfl rfl rfl
  have hfin := hc.2.2.2.2 (by decide) (by decide)
  exact ⟨by rw [hfin.1], by rw [hfin.1]; rfl, hfin.2.1, hfin.2.2 (by decide)⟩

/-- The exception in the amended C1 is needed beyond equal paths: when
`/out/June/a.jpg` is a hard link of `/in/a.jpg`, both steps succeed, nil is
returned and the file is still at `filePath`. -/
theorem hard_link_stays_at_source :
    simSys.sameFile simLinked "/in/a.jpg" "/out/June/a.jpg" = true ∧
    (processImage simSys simLinked ⟨"a.jpg", "/in/a.jpg", "/out"⟩).err = none ∧
    simSys.fileAt (processImage simSys simLinked ⟨"a.jpg", "/in/a.jpg", "/out"⟩).world
      "/in/a.jpg" = true := by
  decide

theorem processImage_failure_cases {σ : Type} (sys : Sys σ) (w : σ)
    (args : processImageArgs) (e : GoError) (hfail : (processImage sys w args).err = some e) :
    (∃ err, sys.osOpen w args.filePath = .error err ∧
      processImage sys w args =
        ⟨w, [.osOpen args.filePath], [],
          some ⟨"failed to open file '" ++ args.fileName ++ "': " ++ err.msg⟩⟩) ∨
    (∃ f f1 err, sys.osOpen w args.filePath = .ok f ∧
      sys.detectReader w f = (f1, .error err) ∧
      processImage sys w args =
        ⟨w, [.osOpen args.filePath, .detectReader f.path, .close f.path], [],
          some ⟨"failed to read MIME type from '" ++ args.fileName ++ "': " ++ err.msg⟩⟩) ∨
    (∃ f f1 m, sys.osOpen w args.filePath = .ok f ∧ sys.detectReader w f = (f1, .ok m) ∧
      m.is "image/jpeg" = false ∧
      processImage sys w args =
        ⟨w, [.osOpen args.filePath, .detectReader f.path, .seekStart f.path, .close f.path],
          [], some ⟨"ignore '" ++ args.fileName ++ "' because of unsupported MIME type '"
            ++ m.str ++ "'"⟩⟩) ∨
    (∃ f f1 m err, sys.osOpen w args.filePath = .ok f ∧
      sys.detectReader w f = (f1, .ok m) ∧ m.is "image/jpeg" = true ∧
      sys.exifDecode w f1.seekStart = .error err ∧
      processImage sys w args =
        ⟨w, [.osOpen args.filePath, .detectReader f.path, .seekStart f.path,
             .exifDecode f.path, .close f.path], [],
          some ⟨"failed to read EXIF data from '" ++ args.fileName ++ "': " ++ err.msg⟩⟩) ∨
    (∃ f f1 m x err, sys.osOpen w args.filePath = .ok f ∧
      sys.detectReader w f = (f1, .ok m) ∧ m.is "image/jpeg" = true ∧
      sys.exifDecode w f1.seekStart = .ok x ∧ x.DateTime = .error err ∧
      processImage sys w args =
        ⟨w, [.osOpen args.filePath, .detectReader f.path, .seekStart f.path,
             .exifDecode f.path, .close f.path], [],
          some ⟨"failed to get time from EXIF data in '" ++ args.fileName ++ "': "
            ++ err.msg⟩⟩) ∨
    (∃ f f1 m x tm err, sys.osOpen w args.filePath = .ok f ∧
      sys.detectReader w f = (f1, .ok m) ∧ m.is "image/jpeg" = true ∧
      sys.exifDecode w f1.seekStart = .ok x ∧ x.DateTime = .ok tm ∧
      (sys.osMkdirAll w (destDir sys args tm) dirPerm).2 = some err ∧
      processImage sys w args =
        ⟨(sys.osMkdirAll w (destDir sys args tm) dirPerm).1,
          [.osOpen args.filePath, .detectReader f.path, .seekStart f.path, .exifDecode f.path,
           .osMkdirAll (destDir sys args tm) dirPerm, .close f.path], [],
          some ⟨"failed to create directory '" ++ destDir sys args tm ++ "': "
            ++ err.msg⟩⟩) ∨
    (∃ f f1 m x tm err, sys.osOpen w args.filePath = .ok f ∧
      sys.detectReader w f = (f1, .ok m) ∧ m.is "image/jpeg" = true ∧
      sys.exifDecode w f1.seekStart = .ok x ∧ x.DateTime = .ok tm ∧
      (sys.osMkdirAll w (destDir sys args tm) dirPerm).2 = none ∧
      (sys.osRename (sys.osMkdirAll w (destDir sys args tm) dirPerm).1 args.filePath
        (destPath sys args tm)).2 = some err ∧
      processImage sys w args =
        ⟨(sys.osRename (sys.osMkdirAll w (destDir sys args tm) dirPerm).1 args.filePath
            (destPath sys args tm)).1,
          [.osOpen args.filePath, .detectReader f.path, .seekStart f.path, .exifDecode f.path,
           .osMkdirAll (destDir sys args tm) dirPerm,
           .osRename args.filePath (destPath sys args tm), .close f.path], [],
          some ⟨"failed to move '" ++ args.fileName ++ "' to '" ++ destDir sys args tm
            ++ "'"⟩⟩) := by
  cases h : sys.osOpen w args.filePath with
  | error err => exact Or.inl ⟨err, rfl, processImage_open_fails sys w args err h⟩
  | ok f =>
    right
    cases hd : sys.detectReader w f with
    | mk f1 r =>
      cases r with
      | error err =>
        exact Or.inl ⟨f, f1, err, rfl, hd, processImage_probe_fails sys w args f f1 err h hd⟩
      | ok m =>
        right
        cases hm : m.is "image/jpeg" with
        | false =>
          exact Or.inl ⟨f, f1, m, rfl, hd, hm,
            processImage_unsupported sys w args f f1 m h hd hm⟩
        | true =>
          right
          cases hx : sys.exifDecode w f1.seekStart with
          | error err =>
            exact Or.inl ⟨f, f1, m, err, rfl, hd, hm, hx,
              processImage_decode_fails sys w args f f1 m err h hd hm hx⟩
          | ok x =>
            right
            cases ht : x.DateTime with
            | error err =>
              exact Or.inl ⟨f, f1, m, x, err, rfl, hd, hm, hx, ht,
                processImage_no_time sys w args f f1 m x err h hd hm hx ht⟩
            | ok tm =>
              right
              cases hk : sys.osMkdirAll w (destDir sys args tm) dirPerm with
              | mk w1 r1 =>
                cases r1 with
                | some err =>
                  refine Or.inl ⟨f, f1, m, x, tm, err, rfl, hd, hm, hx, ht, ?_, ?_⟩
                  · rw [hk]
                  · rw [hk]
                    exact processImage_mkdir_fails sys w args f f1 m x tm w1 err
                      h hd hm hx ht hk
                | none =>
                  right
                  cases hr : sys.osRename w1 args.filePath (destPath sys args tm) with
                  | mk w2 r2 =>
                    cases r2 with
                    | some err =>
                      refine ⟨f, f1, m, x, tm, err, rfl, hd, hm, hx, ht, ?_, ?_, ?_⟩
                      · rw [hk]
                      · rw [hk]; simp only; rw [hr]
                      · rw [hk]; simp only; rw [hr]
                        exact processImage_rename_fails sys w args f f1 m x tm w1 w2 err
                          h hd hm hx ht hk hr
                    | none =>
                      rw [processImage_moves sys w args f f1 m x tm w1 w2
                        h hd hm hx ht hk hr] at hfail
                      simp at hfail

/-- C2: if `processImage` returns the error `e` for a task, every regular
file is where it was (in particular the source file is still at `filePath`)
and nothing was printed; the failure is exactly one of the seven stages, with
the filesystem state, the calls made and the one error fixed by the stage;
for a file that is not image/jpeg, for a JPEG whose EXIF block does not
decode and for a JPEG without the date/time field, the filesystem state is
the one `processImage` started from and no call made is a directory creation
or a rename; and the worker holding the task records `e` once, as the one
error of the task, and goes on to send it, without calling `processImage` on
the task again. -/
theorem C2_failure_leaves_source_in_place {σ : Type} (sys : Sys σ) (hP : Posix sys) (w : σ)
    (args : processImageArgs) (e : GoError) (hfail : (processImage sys w args).err = some e) :
    (∀ p, sys.fileAt (processImage sys w args).world p = sys.fileAt w p) ∧
    (processImage sys w args).stdout = [] ∧
    ((∃ err, sys.osOpen w args.filePath = .error err ∧
        processImage sys w args =
          ⟨w, [.osOpen args.filePath], [],
            some ⟨"failed to open file '" ++ args.fileName ++ "': " ++ err.msg⟩⟩) ∨
      (∃ f f1 err, sys.osOpen w args.filePath = .ok f ∧
        sys.detectReader w f = (f1, .error err) ∧
        processImage sys w args =
          ⟨w, [.osOpen args.filePath, .detectReader f.path, .close f.path], [],
            some ⟨"failed to read MIME type from '" ++ args.fileName ++ "': "
              ++ err.msg⟩⟩) ∨
      (∃ f f1 m, sys.osOpen w args.filePath = .ok f ∧ sys.detectReader w f = (f1, .ok m) ∧
        m.is "image/jpeg" = false ∧
        processImage sys w args =
          ⟨w, [.osOpen args.filePath, .detectReader f.path, .seekStart f.path,
               .close f.path],
            [], some ⟨"ignore '" ++ args.fileName ++ "' because of unsupported MIME type '"
              ++ m.str ++ "'"⟩⟩) ∨
      (∃ f f1 m err, sys.osOpen w args.filePath = .ok f ∧
        sys.detectReader w f = (f1, .ok m) ∧ m.is "image/jpeg" = true ∧
        sys.exifDecode w f1.seekStart = .error err ∧
        processImage sys w args =
          ⟨w, [.osOpen args.filePath, .detectReader f.path, .seekStart f.path,
               .exifDecode f.path, .close f.path], [],
            some ⟨"failed to read EXIF data from '" ++ args.fileName ++ "': "
              ++ err.msg⟩⟩) ∨
      (∃ f f1 m x err, sys.osOpen w args.filePath = .ok f ∧
        sys.detectReader w f = (f1, .ok m) ∧ m.is "image/jpeg" = true ∧
        sys.exifDecode w f1.seekStart = .ok x ∧ x.DateTime = .error err ∧
        processImage sys w args =
          ⟨w, [.osOpen args.filePath, .detectReader f.path, .seekStart f.path,
               .exifDecode f.path, .close f.path], [],
            some ⟨"failed to get time from EXIF data in '" ++ args.fileName ++ "': "
              ++ err.msg⟩⟩) ∨
      (∃ f f1 m x tm err, sys.osOpen w args.filePath = .ok f ∧
        sys.detectReader w f = (f1, .ok m) ∧ m.is "image/jpeg" = true ∧
        sys.exifDecode w f1.seekStart = .ok x ∧ x.DateTime = .ok tm ∧
        (sys.osMkdirAll w (destDir sys args tm) dirPerm).2 = some err ∧
        processImage sys w args =
          ⟨(sys.osMkdirAll w (destDir sys args tm) dirPerm).1,
            [.osOpen args.filePath, .detectReader f.path, .seekStart f.path,
             .exifDecode f.path, .osMkdirAll (destDir sys args tm) dirPerm, .close f.path],
            [], some ⟨"failed to create directory '" ++ destDir sys args tm ++ "': "
              ++ err.msg⟩⟩) ∨
      (∃ f f1 m x tm err, sys.osOpen w args.filePath = .ok f ∧
        sys.detectReader w f = (f1, .ok m) ∧ m.is "image/jpeg" = true ∧
        sys.exifDecode w f1.seekStart = .ok x ∧ x.DateTime = .ok tm ∧
        (sys.osMkdirAll w (destDir sys args tm) dirPerm).2 = none ∧
        (sys.osRename (sys.osMkdirAll w (destDir sys args tm) dirPerm).1 args.filePath
          (destPath sys args tm)).2 = some err ∧
        processImage sys w args =
          ⟨(sys.osRename (sys.osMkdirAll w (destDir sys args tm) dirPerm).1 args.filePath
              (destPath sys args tm)).1,
            [.osOpen args.filePath, .detectReader f.path, .seekStart f.path,
             .exifDecode f.path, .osMkdirAll (destDir sys args tm) dirPerm,
             .osRename args.filePath (destPath sys args tm), .close f.path], [],
            some ⟨"failed to move '" ++ args.fileName ++ "' to '" ++ destDir sys args tm
              ++ "'"⟩⟩)) ∧
    (∀ f f1 m, sys.osOpen w args.filePath = .ok f → sys.detectReader w f = (f1, .ok m) →
      m.is "image/jpeg" = false →
      (processImage sys w args).world = w ∧
      ∀ c ∈ (processImage sys w args).calls, c.mutates = false) ∧
    (∀ f f1 m err, sys.osOpen w args.filePath = .ok f → sys.detectReader w f = (f1, .ok m) →
      m.is "image/jpeg" = true → sys.exifDecode w f1.seekStart = .error err →
      (processImage sys w args).world = w ∧
      ∀ c ∈ (processImage sys w args).calls, c.mutates = false) ∧
    (∀ f f1 m x err, sys.osOpen w args.filePath = .ok f → sys.detectReader w f = (f1, .ok m) →
      m.is "image/jpeg" = true → sys.exifDecode w f1.seekStart = .ok x →
      x.DateTime = .error err →
      (processImage sys w args).world = w ∧
      ∀ c ∈ (processImage sys w args).calls, c.mutates = false) ∧
    (∀ (env : Env σ) (s : Proc σ) (i : Nat), env.sys = sys → s.exit = none → s.world = w →
      s.workers[i]? = some (.run args) →
      step env s (.worker i) =
        some { s with world := (processImage sys w args).world,
                      stdout := s.stdout ++ (processImage sys w args).stdout,
                      processed := s.processed ++ [args],
                      returned := s.returned ++ [e],
                      workers := s.workers.set i (.send e) }) := by
  have hcases := processImage_failure_cases sys w args e hfail
  refine ⟨?_, ?_, hcases, ?_, ?_, ?_, ?_⟩
  · intro p
    rcases hcases with ⟨err, _, hpi⟩ | ⟨f, f1, err, _, _, hpi⟩ | ⟨f, f1, m, _, _, _, hpi⟩ |
      ⟨f, f1, m, err, _, _, _, _, hpi⟩ | ⟨f, f1, m, x, err, _, _, _, _, _, hpi⟩ |
      ⟨f, f1, m, x, tm, err, _, _, _, _, _, _, hpi⟩ |
      ⟨f, f1, m, x, tm, err, _, _, _, _, _, _, hr, hpi⟩
    · rw [hpi]
    · rw [hpi]
    · rw [hpi]
    · rw [hpi]
    · rw [hpi]
    · rw [hpi]
      exact hP.mkdirAll_keeps w (destDir sys args tm) dirPerm p
    · rw [hpi]
      exact (hP.rename_fail_keeps _ args.filePath (destPath sys args tm) err p hr).trans
        (hP.mkdirAll_keeps w (destDir sys args tm) dirPerm p)
  · rcases hcases with ⟨err, _, hpi⟩ | ⟨f, f1, err, _, _, hpi⟩ | ⟨f, f1, m, _, _, _, hpi⟩ |
      ⟨f, f1, m, err, _, _, _, _, hpi⟩ | ⟨f, f1, m, x, err, _, _, _, _, _, hpi⟩ |
      ⟨f, f1, m, x, tm, err, _, _, _, _, _, _, hpi⟩ |
      ⟨f, f1, m, x, tm, err, _, _, _, _, _, _, _, hpi⟩ <;> rw [hpi]
  · intro f f1 m h hd hm
    rw [processImage_unsupported sys w args f f1 m h hd hm]
    refine ⟨rfl, fun c hc => ?_⟩
    simp only [List.mem_cons, List.mem_singleton, List.not_mem_nil, or_false] at hc
    rcases hc with rfl | rfl | rfl | rfl <;> rfl
  · intro f f1 m err h hd hm hx
    rw [processImage_decode_fails sys w args f f1 m err h hd hm hx]
    refine ⟨rfl, fun c hc => ?_⟩
    simp only [List.mem_cons, List.mem_singleton, List.not_mem_nil, or_false] at hc
    rcases hc with rfl | rfl | rfl | rfl | rfl <;> rfl
  · intro f f1 m x err h hd hm hx ht
    rw [processImage_no_time sys w args f f1 m x err h hd hm hx ht]
    refine ⟨rfl, fun c hc => ?_⟩
    simp only [List.mem_cons, List.mem_singleton, List.not_mem_nil, or_false] at hc
    rcases hc with rfl | rfl | rfl | rfl | rfl <;> rfl
  · intro env s i henv hx hw hrun
    subst henv
    subst hw
    simp [step, hx, processImageAsync, hrun, hfail]

/-- C2, witness: the text file `/in/c.txt` is refused: the filesystem is
untouched, the file stays where it is, and no call creates or renames. -/
theorem C2_failure_leaves_source_in_place_witness :
    (processImage simSys simWorld ⟨"c.txt", "/in/c.txt", "/out"⟩).err =
      some ⟨"ignore 'c.txt' because of unsupported MIME type 'text/plain; charset=utf-8'"⟩ ∧
    (processImage simSys simWorld ⟨"c.txt", "/in/c.txt", "/out"⟩).world = simWorld ∧
    simSys.fileAt (processImage simSys simWorld ⟨"c.txt", "/in/c.txt", "/out"⟩).world
      "/in/c.txt" = true ∧
    (∀ c ∈ (processImage simSys simWorld ⟨"c.txt", "/in/c.txt", "/out"⟩).calls,
      c.mutates = false) := by
  have hc := C2_failure_leaves_source_in_place simSys simSys_posix simWorld
    ⟨"c.txt", "/in/c.txt", "/out"⟩
    ⟨"ignore 'c.txt' because of unsupported MIME type 'text/plain; charset=utf-8'"⟩
    (by decide)
  have hj := hc.2.2.2.1 ⟨"/in/c.txt", 0⟩ ⟨"/in/c.txt", 1⟩
      ⟨"text/plain; charset=utf-8", fun s => s == "text/plain; charset=utf-8"⟩ rfl rfl
      (by decide)
  refine ⟨by decide, hj.1, ?_, hj.2⟩
  rw [hc.1 "/in/c.txt"]
  decide

/-- C7, the claim as stated fails: when `/out/June` cannot be created, the
error returned for `a.jpg` names the directory and not the file. -/
theorem C7_counterexample_mkdir_error_omits_file_name :
    (processImage simSys simDenied ⟨"a.jpg", "/in/a.jpg", "/out"⟩).err =
      some ⟨"failed to create directory '/out/June': mkdir /out/June: permission denied"⟩ ∧
    ¬ containsText
      "failed to create directory '/out/June': mkdir /out/June: permission denied" "a.jpg" := by
  constructor
  · decide
  · set_option maxRecDepth 100000 in decide

/-- C7, amended: every error `processImage` returns carries the task's file
name in its message, except the error of a failed directory creation, whose
message carries the destination directory and the cause instead. -/
theorem C7_error_names_file_or_directory {σ : Type} (sys : Sys σ) (w : σ)
    (args : processImageArgs) (e : GoError) (hfail : (processImage sys w args).err = some e) :
    containsText e.msg args.fileName ∨
    ∃ tm cause, (sys.osMkdirAll w (destDir sys args tm) dirPerm).2 = some cause ∧
      e.msg = "failed to create directory '" ++ destDir sys args tm ++ "': " ++ cause.msg := by
  cases h : sys.osOpen w args.filePath with
  | error err =>
    rw [processImage_open_fails sys w args err h] at hfail
    left
    rw [← Option.some.inj hfail]
    exact containsText_of_eq _ _ "failed to open file '".data ("': " ++ err.msg).data
      (by simp [String.data_append])
  | ok f =>
    cases hd : sys.detectReader w f with
    | mk f1 r =>
      cases r with
      | error err =>
        rw [processImage_probe_fails sys w args f f1 err h hd] at hfail
        left
        rw [← Option.some.inj hfail]
        exact containsText_of_eq _ _ "failed to read MIME type from '".data
          ("': " ++ err.msg).data (by simp [String.data_append])
      | ok m =>
        cases hm : m.is "image/jpeg" with
        | false =>
          rw [processImage_unsupported sys w args f f1 m h hd hm] at hfail
          left
          rw [← Option.some.inj hfail]
          exact containsText_of_eq _ _ "ignore '".data
            ("' because of unsupported MIME type '" ++ m.str ++ "'").data
            (by simp [String.data_append])
        | true =>
          cases hx : sys.exifDecode w f1.seekStart with
          | error err =>
            rw [processImage_decode_fails sys w args f f1 m err h hd hm hx] at hfail
            left
            rw [← Option.some.inj hfail]
            exact containsText_of_eq _ _ "failed to read EXIF data from '".data
              ("': " ++ err.msg).data (by simp [String.data_append])
          | ok x =>
            cases ht : x.DateTime with
            | error err =>
              rw [processImage_no_time sys w args f f1 m x err h hd hm hx ht] at hfail
              left
              rw [← Option.some.inj hfail]
              exact containsText_of_eq _ _ "failed to get time from EXIF data in '".data
                ("': " ++ err.msg).data (by simp [String.data_append])
            | ok tm =>
              cases hk : sys.osMkdirAll w (destDir sys args tm) dirPerm with
              | mk w1 r1 =>
                cases r1 with
                | some err =>
                  rw [processImage_mkdir_fails sys w args f f1 m x tm w1 err
                    h hd hm hx ht hk] at hfail
                  right
                  refine ⟨tm, err, by rw [hk], ?_⟩
                  rw [← Option.some.inj hfail]
                  rfl
                | none =>
                  cases hr : sys.osRename w1 args.filePath (destPath sys args tm) with
                  | mk w2 r2 =>
                    cases r2 with
                    | some err =>
                      rw [processImage_rename_fails sys w args f f1 m x tm w1 w2 err
                        h hd hm hx ht hk hr] at hfail
                      left
                      rw [← Option.some.inj hfail]
                      exact containsText_of_eq _ _ "failed to move '".data
                        ("' to '" ++ destDir sys args tm ++ "'").data
                        (by simp [String.data_append, destDir])
                    | none =>
                      rw [processImage_moves sys w args f f1 m x tm w1 w2
                        h hd hm hx ht hk hr] at hfail
                      simp at hfail

/-- C7, witness: the error for the text file `c.txt` names `c.txt`. -/
theorem C7_error_names_file_or_directory_witness :
    (processImage simSys simWorld ⟨"c.txt", "/in/c.txt", "/out"⟩).err =
      some ⟨"ignore 'c.txt' because of unsupported MIME type 'text/plain; charset=utf-8'"⟩ ∧
    (containsText "ignore 'c.txt' because of unsupported MIME type 'text/plain; charset=utf-8'"
        "c.txt" ∨
      ∃ tm cause,
        (simSys.osMkdirAll simWorld (destDir simSys ⟨"c.txt", "/in/c.txt", "/out"⟩ tm)
          dirPerm).2 = some cause ∧
        "ignore 'c.txt' because of unsupported MIME type 'text/plain; charset=utf-8'" =
          "failed to create directory '" ++ destDir simSys ⟨"c.txt", "/in/c.txt", "/out"⟩ tm
            ++ "': " ++ cause.msg) :=
  ⟨by decide, C7_error_names_file_or_directory simSys simWorld ⟨"c.txt", "/in/c.txt", "/out"⟩
    ⟨"ignore 'c.txt' because of unsupported MIME type 'text/plain; charset=utf-8'"⟩
    (by decide)⟩

/-! ## The process: runs of the simulated scenarios -/

/-- C4, evaluated on the code: with one worker and the text file `c.txt` as
only entry, `main` hands the task over and closes `errChan` (line 153) while
the worker has not exited; the worker then obtains its error, stands in
`errChan <- err` on the closed channel with no receiver left to take it, and
its next step is the run-time panic. -/
theorem C4_errChan_closed_while_worker_runs :
    ∃ s t u, Reachable simEnv simWorld s ∧
      s.workers = [.run ⟨"c.txt", "/in/c.txt", "/out"⟩] ∧ s.errsClosed = true ∧ s.exit = none ∧
      step simEnv s (.worker 0) = some t ∧
      t.workers = [.send
        ⟨"ignore 'c.txt' because of unsupported MIME type 'text/plain; charset=utf-8'"⟩] ∧
      step simEnv t (.pass 0) = none ∧
      step simEnv t (.worker 0) = some u ∧
      u.stderr = ["panic: send on closed channel\n"] ∧ u.exit = some 2 := by
  refine ⟨(runSched simEnv (Proc.init simWorld) schedCloseEarly).get (by decide),
    (runSched simEnv (Proc.init simWorld) (schedCloseEarly ++ [.worker 0])).get (by decide),
    (runSched simEnv (Proc.init simWorld)
      (schedCloseEarly ++ [.worker 0, .worker 0])).get (by decide),
    ⟨schedCloseEarly, by simp⟩, by decide, by decide, by decide, ?_, by decide, ?_, ?_,
    by decide, by decide⟩
  · rfl
  · rfl
  · rfl

/-- C3, evaluated on the code: with one worker and the text file `c.txt` as
only entry, the worker's error is received by the collector, the worker
exits and `main` passes `wg.Wait()`; `main` then stands at the report with
every worker exited and one error returned by `processImage`, while the
collector has not yet appended it: the list is empty and `main` ends the run
with exit status 0 and nothing reported. -/
theorem C3_report_read_before_error_appended :
    ∃ s t, Reachable simEnv simWorld s ∧
      s.main = .report ∧ (∀ pc ∈ s.workers, pc = .exited) ∧ s.wg = 0 ∧
      s.returned =
        [⟨"ignore 'c.txt' because of unsupported MIME type 'text/plain; charset=utf-8'"⟩] ∧
      s.collector = .add
        ⟨"ignore 'c.txt' because of unsupported MIME type 'text/plain; charset=utf-8'"⟩ ∧
      s.errList.errs.length = 0 ∧
      step simEnv s .main = some t ∧ t.stderr = [] ∧ t.exit = some 0 := by
  refine ⟨(runSched simEnv (Proc.init simWorld) schedLateAdd).get (by decide),
    (runSched simEnv (Proc.init simWorld) (schedLateAdd ++ [.main])).get (by decide),
    ⟨schedLateAdd, by simp⟩, by decide, by decide, by decide, by decide, by decide, by decide,
    ?_, by decide, by decide⟩
  rfl

/-- C10, evaluated on the code: `--out` is given and the listing succeeds, yet
a run ends with exit status 2: the worker's send on the `errChan` that `main`
has already closed panics. -/
theorem C10_panic_exit_with_out_given_and_listing_ok :
    simEnv.flagOutDir ≠ "" ∧
    (simEnv.ioutilReadDir simWorld simEnv.flagInDir).toOption =
      some [⟨"sub", true⟩, ⟨"c.txt", false⟩] ∧
    ∃ s, Reachable simEnv simWorld s ∧ s.exit = some 2 ∧
      s.stderr = ["panic: send on closed channel\n"] := by
  refine ⟨by decide, by decide,
    (runSched simEnv (Proc.init simWorld)
      (schedCloseEarly ++ [.worker 0, .worker 0])).get (by decide),
    ⟨schedCloseEarly ++ [.worker 0, .worker 0], by simp⟩, by decide, by decide⟩

/-- C5, the claim as stated fails: when the input directory cannot be listed,
`main` stops with exit status 1 and one diagnostic line, but the worker
goroutine and the collector have been launched before the listing. -/
theorem C5_counterexample_workers_launched_before_listing :
    (simEnvNoDir.ioutilReadDir simWorld simEnvNoDir.flagInDir).toOption = none ∧
    ∃ s, Reachable simEnvNoDir simWorld s ∧ s.exit = some 1 ∧
      s.stderr = ["failed to reading directory '/nowhere': " ++
        "open /nowhere: no such file or directory\n"] ∧
      s.workers = [.recv] ∧ s.collector = .recv := by
  refine ⟨by decide,
    (runSched simEnvNoDir (Proc.init simWorld) schedListing).get (by decide),
    ⟨schedListing, by simp⟩, by decide, by decide, by decide, by decide⟩

/-! ## The process: schedules and invariants -/

section Process

variable {σ : Type} (env : Env σ)

theorem runSched_append (s : Proc σ) (a b : List Action) :
    runSched env s (a ++ b) = (runSched env s a).bind (fun t => runSched env t b) := by
  induction a generalizing s with
  | nil => simp [runSched]
  | cons x a ih =>
    simp only [List.cons_append, runSched]
    cases step env s x with
    | none => simp
    | some t => simpa using ih t

theorem Reach.refl (s : Proc σ) : Reach env s s := ⟨[], rfl⟩

theorem Reach.trans {s t u : Proc σ} (h1 : Reach env s t) (h2 : Reach env t u) :
    Reach env s u := by
  obtain ⟨a, ha⟩ := h1
  obtain ⟨b, hb⟩ := h2
  exact ⟨a ++ b, by rw [runSched_append, ha]; simpa using hb⟩

theorem Reach.single {s t : Proc σ} (a : Action) (h : step env s a = some t) :
    Reach env s t := ⟨[a], by simp [runSched, h]⟩

theorem runSched_invariant (P : Proc σ → Prop)
    (hstep : ∀ s a t, P s → step env s a = some t → P t) :
    ∀ (sched : List Action) (s t : Proc σ), P s → runSched env s sched = some t → P t := by
  intro sched
  induction sched with
  | nil =>
    intro s t hs h
    simp only [runSched, Option.some.injEq] at h
    exact h ▸ hs
  | cons a rest ih =>
    intro s t hs h
    simp only [runSched] at h
    cases hst : step env s a with
    | none => simp [hst] at h
    | some u =>
      rw [hst] at h
      exact ih u t (hstep s a u hs hst) (by simpa using h)

theorem listingInv_init (w : σ) : ListingInv w (Proc.init w) where
  main_early := rfl
  world_eq := rfl
  sent_nil := rfl
  processed_nil := rfl
  returned_nil := rfl
  workers_recv := by simp [Proc.init]
  tasks_open := rfl
  errs_open := rfl
  collector_idle := Or.inl rfl
  exit_one := Or.inl rfl

theorem listingInv_step_any (w : σ)
    (s : Proc σ) (a : Action) (t : Proc σ) (hI : ListingInv w s) (h : step env s a = some t) :
    a = .main ∧ (ListingInv w t ∨
      ∃ dir, env.ioutilReadDir w env.flagInDir = .ok dir ∧ s.main = .readDir ∧
        t = { s with main := .feed dir }) := by
  obtain ⟨h1, h2, h3, h4, h5, h6, h7, h8, h9, h10⟩ := hI
  unfold step at h
  split at h
  · simp at h
  · cases a with
    | main =>
      refine ⟨rfl, ?_⟩
      simp only [main] at h
      cases hm : s.main with
      | checkOut =>
        rw [hm] at h
        simp only at h
        left
        split at h <;> (obtain rfl := Option.some.inj h; constructor <;> first | assumption | simp_all [MainPc.beforeFeed])
      | setup =>
        rw [hm] at h
        obtain rfl := Option.some.inj h
        left
        constructor <;> first | assumption | simp_all [MainPc.beforeFeed]
      | spawn i =>
        rw [hm] at h
        simp only at h
        left
        split at h
        · obtain rfl := Option.some.inj h
          refine ⟨rfl, h2, h3, h4, h5, ?_, h7, h8, h9, h10⟩
          intro pc hpc
          rcases List.mem_append.1 hpc with hp | hp
          · exact h6 pc hp
          · simpa using hp
        · obtain rfl := Option.some.inj h
          exact ⟨rfl, h2, h3, h4, h5, h6, h7, h8, h9, h10⟩
      | spawnCollector =>
        rw [hm] at h
        obtain rfl := Option.some.inj h
        left
        constructor <;> first | assumption | simp_all [MainPc.beforeFeed]
      | readDir =>
        rw [hm] at h
        simp only at h
        cases hrd : env.ioutilReadDir w env.flagInDir with
        | error err =>
          have hrd2 : env.ioutilReadDir s.world env.flagInDir = .error err := by rw [h2, hrd]
          rw [hrd2] at h
          obtain rfl := Option.some.inj h
          left
          constructor <;> first | assumption | simp_all [MainPc.beforeFeed]
        | ok dir =>
          have hrd2 : env.ioutilReadDir s.world env.flagInDir = .ok dir := by rw [h2, hrd]
          rw [hrd2] at h
          obtain rfl := Option.some.inj h
          right
          exact ⟨dir, rfl, rfl, rfl⟩
      | feed rest => rw [hm] at h1; simp [MainPc.beforeFeed] at h1
      | closeTasks => rw [hm] at h1; simp [MainPc.beforeFeed] at h1
      | closeErrs => rw [hm] at h1; simp [MainPc.beforeFeed] at h1
      | wait => rw [hm] at h1; simp [MainPc.beforeFeed] at h1
      | report => rw [hm] at h1; simp [MainPc.beforeFeed] at h1
    | hand i =>
      exfalso
      simp only [stepHand] at h
      cases hm : s.main <;> rw [hm] at h h1 <;> simp [MainPc.beforeFeed] at h h1
    | worker i =>
      exfalso
      simp only [processImageAsync] at h
      cases hw : s.workers[i]? with
      | none => simp [hw] at h
      | some pc =>
        have := h6 pc (List.getElem?_mem hw)
        subst this
        simp [hw, h7] at h
    | pass i =>
      exfalso
      simp only [stepPass] at h
      cases hw : s.workers[i]? with
      | none => simp [hw] at h
      | some pc =>
        have := h6 pc (List.getElem?_mem hw)
        subst this
        simp [hw] at h
    | collector =>
      exfalso
      simp only [stepCollector] at h
      rcases h9 with h9 | h9 <;> simp [h9, h8] at h

theorem listingInv_step (w : σ) (err : GoError)
    (hdir : env.ioutilReadDir w env.flagInDir = .error err)
    (s : Proc σ) (a : Action) (t : Proc σ) (hI : ListingInv w s) (h : step env s a = some t) :
    a = .main ∧ ListingInv w t := by
  obtain ⟨ha, ht⟩ := listingInv_step_any env w s a t hI h
  refine ⟨ha, ht.resolve_right ?_⟩
  rintro ⟨dir, hd, _⟩
  rw [hdir] at hd
  cases hd

theorem listingInv_main_enabled (w : σ) (s : Proc σ) (hI : ListingInv w s)
    (hx : s.exit = none) : (step env s .main).isSome = true := by
  have h1 := hI.main_early
  simp only [step, hx, Option.isSome_none, Bool.false_eq_true, if_false, main]
  cases hm : s.main with
  | checkOut => simp only; split <;> rfl
  | setup => rfl
  | spawn i => simp only; split <;> rfl
  | spawnCollector => rfl
  | readDir => simp only; split <;> rfl
  | feed rest => rw [hm] at h1; simp [MainPc.beforeFeed] at h1
  | closeTasks => rw [hm] at h1; simp [MainPc.beforeFeed] at h1
  | closeErrs => rw [hm] at h1; simp [MainPc.beforeFeed] at h1
  | wait => rw [hm] at h1; simp [MainPc.beforeFeed] at h1
  | report => rw [hm] at h1; simp [MainPc.beforeFeed] at h1

theorem listingInv_reachable (w : σ) (err : GoError)
    (hdir : env.ioutilReadDir w env.flagInDir = .error err) (s : Proc σ)
    (h : Reachable env w s) : ListingInv w s := by
  obtain ⟨sched, hs⟩ := h
  exact runSched_invariant env (ListingInv w)
    (fun s a t hI hst => (listingInv_step env w err hdir s a t hI hst).2)
    sched (Proc.init w) s (listingInv_init w) hs

theorem spawn_loop (k : Nat) : ∀ (s : Proc σ) (i : Nat), s.main = .spawn i → s.exit = none →
    i + k = env.numCPU →
    runSched env s (List.replicate k .main) =
      some { s with workers := s.workers ++ List.replicate k .recv,
                    main := .spawn env.numCPU } := by
  induction k with
  | zero =>
    intro s i hm hx hk
    cases s
    simp only [Nat.add_zero] at hk
    subst hk
    simp_all [runSched]
  | succ k ih =>
    intro s i hm hx hk
    have hlt : i < env.numCPU := by omega
    have hstep : step env s .main =
        some { s with workers := s.workers ++ [.recv], main := .spawn (i + 1) } := by
      simp [step, hx, main, hm, hlt]
    have hrest := ih { s with workers := s.workers ++ [.recv], main := .spawn (i + 1) }
      (i + 1) rfl hx (by omega)
    simp only [List.replicate_succ, runSched, hstep, Option.some_bind, hrest]
    simp [List.append_assoc]

theorem listing_failure_run (w : σ) (err : GoError) (hout : env.flagOutDir ≠ "")
    (hdir : env.ioutilReadDir w env.flagInDir = .error err) :
    ∃ s, Reachable env w s ∧ s.exit = some 1 ∧
      s.stderr =
        ["failed to reading directory '" ++ env.flagInDir ++ "': " ++ err.msg ++ "\n"] ∧
      s.workers = List.replicate env.numCPU .recv ∧ s.collector = .recv := by
  have r1 : Reach env (Proc.init w)
      { (Proc.init w) with outDir := env.filepathAbs env.flagOutDir, wg := 0 + env.numCPU,
                           main := .spawn 0 } :=
    ⟨[.main, .main], by simp [runSched, step, main, Proc.init, hout]⟩
  have r2 := spawn_loop env env.numCPU
    { (Proc.init w) with outDir := env.filepathAbs env.flagOutDir, wg := 0 + env.numCPU,
                         main := .spawn 0 } 0 rfl rfl (by simp)
  have r3 : Reach env
      { (Proc.init w) with outDir := env.filepathAbs env.flagOutDir, wg := 0 + env.numCPU,
                           workers := [] ++ List.replicate env.numCPU .recv,
                           main := .spawn env.numCPU }
      { (Proc.init w) with outDir := env.filepathAbs env.flagOutDir, wg := 0 + env.numCPU,
                           workers := [] ++ List.replicate env.numCPU .recv,
                           main := .readDir, collector := .recv,
                           stderr := [] ++ ["failed to reading directory '" ++ env.flagInDir
                             ++ "': " ++ err.msg ++ "\n"],
                           exit := some 1 } :=
    ⟨[.main, .main, .main], by simp [runSched, step, main, Proc.init, hdir]⟩
  exact ⟨_, (r1.trans env ⟨_, r2⟩).trans env r3, rfl, by simp, by simp, rfl⟩

theorem processImageAsync_keeps (s t : Proc σ) (i : Nat) (h : processImageAsync env s i = some t) :
    t.main = s.main ∧ t.sent = s.sent ∧ t.outDir = s.outDir := by
  simp only [processImageAsync] at h
  split at h
  · split at h
    · obtain rfl := Option.some.inj h
      exact ⟨rfl, rfl, rfl⟩
    · simp at h
  · split at h <;> (obtain rfl := Option.some.inj h; exact ⟨rfl, rfl, rfl⟩)
  · split at h
    · obtain rfl := Option.some.inj h
      exact ⟨rfl, rfl, rfl⟩
    · simp at h
  · simp at h

theorem stepPass_keeps (s t : Proc σ) (i : Nat) (h : stepPass s i = some t) :
    t.main = s.main ∧ t.sent = s.sent ∧ t.outDir = s.outDir := by
  simp only [stepPass] at h
  split at h
  · split at h
    · simp at h
    · obtain rfl := Option.some.inj h
      exact ⟨rfl, rfl, rfl⟩
  · simp at h

theorem stepCollector_keeps (s t : Proc σ) (h : stepCollector s = some t) :
    t.main = s.main ∧ t.sent = s.sent ∧ t.outDir = s.outDir := by
  simp only [stepCollector] at h
  split at h
  · split at h
    · obtain rfl := Option.some.inj h
      exact ⟨rfl, rfl, rfl⟩
    · simp at h
  · obtain rfl := Option.some.inj h
    exact ⟨rfl, rfl, rfl⟩
  · simp at h

theorem tasksOf_nil (outDir : String) : tasksOf env outDir [] = [] := rfl

theorem tasksOf_cons_dir (outDir : String) (fi : FileInfo) (rest : List FileInfo)
    (h : fi.IsDir = true) : tasksOf env outDir (fi :: rest) = tasksOf env outDir rest := by
  simp [tasksOf, h]

theorem tasksOf_cons_file (outDir : String) (fi : FileInfo) (rest : List FileInfo)
    (h : fi.IsDir = false) :
    tasksOf env outDir (fi :: rest) = mkTask env outDir fi :: tasksOf env outDir rest := by
  simp [tasksOf, h]

theorem feedInv_of_keeps (w : σ) (dir : List FileInfo) (s t : Proc σ)
    (hI : FeedInv env w dir s) (hne : s.main.beforeFeed = false)
    (hk : t.main = s.main ∧ t.sent = s.sent ∧ t.outDir = s.outDir) : FeedInv env w dir t := by
  obtain ⟨hm, hs, ho⟩ := hk
  refine ⟨?_, ?_, ?_, ?_⟩
  · rw [hm, ho]; exact hI.outDir_ok
  · intro hb; rw [hm, hne] at hb; cases hb
  · intro rest hr; rw [hs]; exact hI.feeding rest (hm ▸ hr)
  · intro hf; rw [hs]; exact hI.fed (hm ▸ hf)

theorem feedInv_init (w : σ) (dir : List FileInfo) : FeedInv env w dir (Proc.init w) where
  outDir_ok := Or.inl rfl
  early := fun _ => listingInv_init w
  feeding := by intro rest h; cases h
  fed := by intro h; cases h

theorem feedInv_step (w : σ) (dir : List FileInfo)
    (hdir : env.ioutilReadDir w env.flagInDir = .ok dir)
    (s : Proc σ) (a : Action) (t : Proc σ) (hI : FeedInv env w dir s)
    (h : step env s a = some t) : FeedInv env w dir t := by
  cases he : s.main.beforeFeed with
  | true =>
    have hL := hI.early he
    obtain ⟨ha, ht⟩ := listingInv_step_any env w s a t hL h
    subst ha
    have hx : s.exit.isSome = false := by
      cases hxx : s.exit.isSome with
      | false => rfl
      | true => simp [step, hxx] at h
    simp only [step, hx, Bool.false_eq_true, if_false, main] at h
    rcases ht with ht | ⟨d, hd, hm, rfl⟩
    · have hb := ht.main_early
      refine ⟨?_, fun _ => ht, ?_, ?_⟩
      · have ho := hI.outDir_ok
        cases hm : s.main with
        | checkOut =>
          rw [hm] at h
          simp only at h
          split at h <;> (obtain rfl := Option.some.inj h; simp [hm])
        | setup =>
          rw [hm] at h
          obtain rfl := Option.some.inj h
          simp
        | spawn i =>
          rw [hm] at h ho
          simp only at h
          split at h <;> (obtain rfl := Option.some.inj h; simpa using ho)
        | spawnCollector =>
          rw [hm] at h ho
          obtain rfl := Option.some.inj h
          simpa using ho
        | readDir =>
          rw [hm] at h ho
          simp only at h
          split at h <;> (obtain rfl := Option.some.inj h; simpa using ho)
        | feed rest => rw [hm] at he; cases he
        | closeTasks => rw [hm] at he; cases he
        | closeErrs => rw [hm] at he; cases he
        | wait => rw [hm] at he; cases he
        | report => rw [hm] at he; cases he
      · intro rest hr
        rw [hr] at hb
        cases hb
      · intro hf
        cases hm : t.main <;> rw [hm] at hb hf <;> simp [MainPc.beforeFeed, MainPc.fed] at hb hf
    · rw [hdir] at hd
      obtain rfl := Except.ok.inj hd
      have ho := hI.outDir_ok
      rw [hm] at ho
      refine ⟨(by simpa using ho), ?_, ?_, ?_⟩
      · intro hb; cases hb
      · intro rest hr
        simp only [MainPc.feed.injEq] at hr
        subst hr
        simp [hL.sent_nil]
      · intro hf; cases hf
  | false =>
    unfold step at h
    split at h
    · simp at h
    · cases a with
      | main =>
        simp only [main] at h
        have ho := hI.outDir_ok
        cases hm : s.main with
        | checkOut => rw [hm] at he; cases he
        | setup => rw [hm] at he; cases he
        | spawn i => rw [hm] at he; cases he
        | spawnCollector => rw [hm] at he; cases he
        | readDir => rw [hm] at he; cases he
        | feed rest =>
          rw [hm] at h ho
          have hf := hI.feeding rest hm
          cases rest with
          | nil =>
            obtain rfl := Option.some.inj h
            refine ⟨(by simpa using ho), (by intro hb; cases hb), (by intro r hr; cases hr), ?_⟩
            intro _
            simpa [tasksOf_nil] using hf
          | cons fi rest =>
            simp only at h
            split at h
            · rename_i hd
              obtain rfl := Option.some.inj h
              refine ⟨(by simpa using ho), (by intro hb; cases hb), ?_, (by intro hf; cases hf)⟩
              intro r hr
              simp only [MainPc.feed.injEq] at hr
              subst hr
              rw [tasksOf_cons_dir env _ fi _ hd] at hf
              exact hf
            · simp at h
        | closeTasks =>
          rw [hm] at h ho
          have hf := hI.fed (by rw [hm]; rfl)
          obtain rfl := Option.some.inj h
          exact ⟨(by simpa using ho), (by intro hb; cases hb), (by intro r hr; cases hr),
            fun _ => hf⟩
        | closeErrs =>
          rw [hm] at h ho
          have hf := hI.fed (by rw [hm]; rfl)
          obtain rfl := Option.some.inj h
          exact ⟨(by simpa using ho), (by intro hb; cases hb), (by intro r hr; cases hr),
            fun _ => hf⟩
        | wait =>
          rw [hm] at h ho
          have hf := hI.fed (by rw [hm]; rfl)
          simp only at h
          split at h
          · obtain rfl := Option.some.inj h
            exact ⟨(by simpa using ho), (by intro hb; cases hb), (by intro r hr; cases hr),
              fun _ => hf⟩
          · simp at h
        | report =>
          rw [hm] at h ho
          have hf := hI.fed (by rw [hm]; rfl)
          obtain rfl := Option.some.inj h
          refine ⟨by simpa [hm] using ho, ?_, ?_, fun _ => hf⟩
          · intro hb; simp [hm, MainPc.beforeFeed] at hb
          · intro r hr; simp [hm] at hr
      | hand i =>
        simp only [stepHand] at h
        have ho := hI.outDir_ok
        split at h
        · rename_i fi rest hm hw
          have hf := hI.feeding (fi :: rest) hm
          split at h
          · simp at h
          · rename_i hc
            obtain rfl := Option.some.inj h
            rw [hm] at ho
            have ho2 : s.outDir = env.filepathAbs env.flagOutDir := by simpa using ho
            have hd : fi.IsDir = false := by
              cases hfd : fi.IsDir with
              | false => rfl
              | true => simp [hfd] at hc
            refine ⟨Or.inr (Or.inr ho2), (by intro hb; cases hb), ?_, (by intro hf; cases hf)⟩
            intro r hr
            simp only [MainPc.feed.injEq] at hr
            subst hr
            rw [tasksOf_cons_file env _ fi _ hd] at hf
            simp only [ho2, List.append_assoc, List.singleton_append]
            exact hf
        · simp at h
      | worker i => exact feedInv_of_keeps env w dir s t hI he (processImageAsync_keeps env s t i h)
      | pass i => exact feedInv_of_keeps env w dir s t hI he (stepPass_keeps s t i h)
      | collector => exact feedInv_of_keeps env w dir s t hI he (stepCollector_keeps s t h)

theorem feedInv_reachable (w : σ) (dir : List FileInfo)
    (hdir : env.ioutilReadDir w env.flagInDir = .ok dir) (s : Proc σ)
    (h : Reachable env w s) : FeedInv env w dir s := by
  obtain ⟨sched, hs⟩ := h
  exact runSched_invariant env (FeedInv env w dir)
    (fun s a t hI hst => feedInv_step env w dir hdir s a t hI hst)
    sched (Proc.init w) s (feedInv_init env w dir) hs

theorem getElem?_set_zero {α : Type} (l : List α) (x y : α) (h : l[0]? = some x) :
    (l.set 0 y)[0]? = some y := by
  cases l with
  | nil => simp at h
  | cons a l => simp

theorem feed_run : ∀ (rest : List FileInfo) (s : Proc σ), s.main = .feed rest →
    s.exit = none → s.workers[0]? = some .recv → s.collector = .recv →
    s.tasksClosed = false → s.errsClosed = false →
    ∃ t, Reach env s t ∧ t.main = .closeTasks ∧ t.exit = none ∧ t.outDir = s.outDir ∧
      t.sent = s.sent ++ tasksOf env s.outDir rest := by
  intro rest
  induction rest with
  | nil =>
    intro s hm hx hw hc htc hec
    refine ⟨{ s with main := .closeTasks }, Reach.single env .main ?_, rfl, hx, rfl, ?_⟩
    · simp [step, hx, main, hm]
    · simp [tasksOf_nil]
  | cons fi rest ih =>
    intro s hm hx hw hc htc hec
    cases hd : fi.IsDir with
    | true =>
      have h1 : step env s .main = some { s with main := .feed rest } := by
        simp [step, hx, main, hm, hd]
      obtain ⟨t, ht, h2, h3, h4, h5⟩ := ih { s with main := .feed rest } rfl hx hw hc htc hec
      refine ⟨t, (Reach.single env .main h1).trans env ht, h2, h3, h4, ?_⟩
      rw [h5, tasksOf_cons_dir env _ fi rest hd]
    | false =>
      have h1 : step env s (.hand 0) =
          some { s with workers := s.workers.set 0 (.run (mkTask env s.outDir fi)),
                        main := .feed rest, sent := s.sent ++ [mkTask env s.outDir fi] } := by
        simp [step, hx, stepHand, hm, hw, hd, htc]
      have hw1 : (s.workers.set 0 (.run (mkTask env s.outDir fi)))[0]?
          = some (.run (mkTask env s.outDir fi)) := getElem?_set_zero _ _ _ hw
      have hw0 : (s.workers.set 0 .recv)[0]? = some .recv := getElem?_set_zero _ _ _ hw
      cases hp : (processImage env.sys s.world (mkTask env s.outDir fi)).err with
      | none =>
        have h2 : step env
            { s with workers := s.workers.set 0 (.run (mkTask env s.outDir fi)),
                     main := .feed rest, sent := s.sent ++ [mkTask env s.outDir fi] }
            (.worker 0) =
            some { s with
              world := (processImage env.sys s.world (mkTask env s.outDir fi)).world,
              stdout := s.stdout ++
                (processImage env.sys s.world (mkTask env s.outDir fi)).stdout,
              processed := s.processed ++ [mkTask env s.outDir fi],
              workers := s.workers.set 0 .recv,
              main := .feed rest, sent := s.sent ++ [mkTask env s.outDir fi] } := by
          simp [step, hx, processImageAsync, hw1, hp]
        obtain ⟨t, ht, h3, h4, h5, h6⟩ := ih
          { s with
              world := (processImage env.sys s.world (mkTask env s.outDir fi)).world,
              stdout := s.stdout ++
                (processImage env.sys s.world (mkTask env s.outDir fi)).stdout,
              processed := s.processed ++ [mkTask env s.outDir fi],
              workers := s.workers.set 0 .recv,
              main := .feed rest, sent := s.sent ++ [mkTask env s.outDir fi] }
          rfl hx hw0 hc htc hec
        refine ⟨t, ((Reach.single env _ h1).trans env (Reach.single env _ h2)).trans env ht,
          h3, h4, h5, ?_⟩
        rw [h6, tasksOf_cons_file env _ fi rest hd]
        simp
      | some e =>
        have h2 : step env
            { s with workers := s.workers.set 0 (.run (mkTask env s.outDir fi)),
                     main := .feed rest, sent := s.sent ++ [mkTask env s.outDir fi] }
            (.worker 0) =
            some { s with
              world := (processImage env.sys s.world (mkTask env s.outDir fi)).world,
              stdout := s.stdout ++
                (processImage env.sys s.world (mkTask env s.outDir fi)).stdout,
              processed := s.processed ++ [mkTask env s.outDir fi],
              returned := s.returned ++ [e],
              workers := s.workers.set 0 (.send e),
              main := .feed rest, sent := s.sent ++ [mkTask env s.outDir fi] } := by
          simp [step, hx, processImageAsync, hw1, hp]
        have hw2 : (s.workers.set 0 (.send e))[0]? = some (.send e) :=
          getElem?_set_zero _ _ _ hw
        have h3 : step env
            { s with
              world := (processImage env.sys s.world (mkTask env s.outDir fi)).world,
              stdout := s.stdout ++
                (processImage env.sys s.world (mkTask env s.outDir fi)).stdout,
              processed := s.processed ++ [mkTask env s.outDir fi],
              returned := s.returned ++ [e],
              workers := s.workers.set 0 (.send e),
              main := .feed rest, sent := s.sent ++ [mkTask env s.outDir fi] }
            (.pass 0) =
            some { s with
              world := (processImage env.sys s.world (mkTask env s.outDir fi)).world,
              stdout := s.stdout ++
                (processImage env.sys s.world (mkTask env s.outDir fi)).stdout,
              processed := s.processed ++ [mkTask env s.outDir fi],
              returned := s.returned ++ [e],
              workers := s.workers.set 0 .recv,
              collector := .add e,
              main := .feed rest, sent := s.sent ++ [mkTask env s.outDir fi] } := by
          simp [step, hx, stepPass, hw2, hc, hec]
        have h4 : step env
            { s with
              world := (processImage env.sys s.world (mkTask env s.outDir fi)).world,
              stdout := s.stdout ++
                (processImage env.sys s.world (mkTask env s.outDir fi)).stdout,
              processed := s.processed ++ [mkTask env s.outDir fi],
              returned := s.returned ++ [e],
              workers := s.workers.set 0 .recv,
              collector := .add e,
              main := .feed rest, sent := s.sent ++ [mkTask env s.outDir fi] }
            .collector =
            some { s with
              world := (processImage env.sys s.world (mkTask env s.outDir fi)).world,
              stdout := s.stdout ++
                (processImage env.sys s.world (mkTask env s.outDir fi)).stdout,
              processed := s.processed ++ [mkTask env s.outDir fi],
              returned := s.returned ++ [e],
              workers := s.workers.set 0 .recv,
              collector := .recv,
              errList := s.errList.add (some e),
              main := .feed rest, sent := s.sent ++ [mkTask env s.outDir fi] } := by
          simp [step, hx, stepCollector]
        obtain ⟨t, ht, h5, h6, h7, h8⟩ := ih
          { s with
              world := (processImage env.sys s.world (mkTask env s.outDir fi)).world,
              stdout := s.stdout ++
                (processImage env.sys s.world (mkTask env s.outDir fi)).stdout,
              processed := s.processed ++ [mkTask env s.outDir fi],
              returned := s.returned ++ [e],
              workers := s.workers.set 0 .recv,
              collector := .recv,
              errList := s.errList.add (some e),
              main := .feed rest, sent := s.sent ++ [mkTask env s.outDir fi] }
          rfl hx hw0 rfl htc hec
        refine ⟨t, ((((Reach.single env _ h1).trans env (Reach.single env _ h2)).trans env
          (Reach.single env _ h3)).trans env (Reach.single env _ h4)).trans env ht,
          h5, h6, h7, ?_⟩
        rw [h8, tasksOf_cons_file env _ fi rest hd]
        simp

theorem feeding_completes (w : σ) (dir : List FileInfo) (hout : env.flagOutDir ≠ "")
    (hcpu : 0 < env.numCPU) (hdir : env.ioutilReadDir w env.flagInDir = .ok dir) :
    ∃ s, Reachable env w s ∧ s.main = .closeTasks ∧ s.exit = none ∧
      s.sent = tasksOf env (env.filepathAbs env.flagOutDir) dir := by
  have r1 : Reach env (Proc.init w)
      { (Proc.init w) with outDir := env.filepathAbs env.flagOutDir, wg := 0 + env.numCPU,
                           main := .spawn 0 } :=
    ⟨[.main, .main], by simp [runSched, step, main, Proc.init, hout]⟩
  have r2 := spawn_loop env env.numCPU
    { (Proc.init w) with outDir := env.filepathAbs env.flagOutDir, wg := 0 + env.numCPU,
                         main := .spawn 0 } 0 rfl rfl (by simp)
  have r3 : Reach env
      { (Proc.init w) with outDir := env.filepathAbs env.flagOutDir, wg := 0 + env.numCPU,
                           workers := [] ++ List.replicate env.numCPU .recv,
                           main := .spawn env.numCPU }
      { (Proc.init w) with outDir := env.filepathAbs env.flagOutDir, wg := 0 + env.numCPU,
                           workers := [] ++ List.replicate env.numCPU .recv,
                           main := .feed dir, collector := .recv } :=
    ⟨[.main, .main, .main], by simp [runSched, step, main, Proc.init, hdir]⟩
  have hw : ([] ++ List.replicate env.numCPU WorkerPc.recv)[0]? = some .recv := by
    cases hn : env.numCPU with
    | zero => omega
    | succ n => simp [List.replicate_succ]
  obtain ⟨t, ht, h1, h2, _, h4⟩ := feed_run env dir
    { (Proc.init w) with outDir := env.filepathAbs env.flagOutDir, wg := 0 + env.numCPU,
                         workers := [] ++ List.replicate env.numCPU .recv,
                         main := .feed dir, collector := .recv } rfl rfl hw rfl rfl rfl
  exact ⟨t, ((r1.trans env ⟨_, r2⟩).trans env r3).trans env ht, h1, h2, by simpa [Proc.init] using h4⟩

/-- C5, amended: if listing the input directory fails, `main` stops with exit
status 1 after one diagnostic line; at that point the `numCPU` workers and
the collector have been launched, every worker still waiting for a first
task.  In every reachable state no task has been sent or processed, the
filesystem is untouched, and only `main` can move, which it can until the
process has ended, with no other status than 1. -/
theorem C5_listing_failure_aborts_before_any_task {σ : Type} (env : Env σ) (w : σ)
    (err : GoError) (hout : env.flagOutDir ≠ "")
    (hdir : env.ioutilReadDir w env.flagInDir = .error err) :
    (∃ s, Reachable env w s ∧ s.exit = some 1 ∧
      s.stderr =
        ["failed to reading directory '" ++ env.flagInDir ++ "': " ++ err.msg ++ "\n"] ∧
      s.workers = List.replicate env.numCPU .recv ∧ s.collector = .recv) ∧
    (∀ s, Reachable env w s →
      s.sent = [] ∧ s.processed = [] ∧ s.world = w ∧ (∀ pc ∈ s.workers, pc = .recv) ∧
      (s.exit = none ∨ s.exit = some 1) ∧
      (s.exit = none → (step env s .main).isSome = true) ∧
      (∀ a t, step env s a = some t → a = .main)) := by
  refine ⟨listing_failure_run env w err hout hdir, fun s hs => ?_⟩
  have hI := listingInv_reachable env w err hdir s hs
  exact ⟨hI.sent_nil, hI.processed_nil, hI.world_eq, hI.workers_recv, hI.exit_one,
    listingInv_main_enabled env w s hI,
    fun a t hst => (listingInv_step env w err hdir s a t hI hst).1⟩

/-- C5, witness: the run over the missing directory `/nowhere`. -/
theorem C5_listing_failure_aborts_before_any_task_witness :
    simEnvNoDir.flagOutDir ≠ "" ∧
    ∃ s, Reachable simEnvNoDir simWorld s ∧ s.exit = some 1 ∧
      s.stderr = ["failed to reading directory '" ++ simEnvNoDir.flagInDir ++ "': " ++
        "open /nowhere: no such file or directory" ++ "\n"] ∧
      s.workers = List.replicate simEnvNoDir.numCPU .recv ∧ s.collector = .recv :=
  ⟨by decide, (C5_listing_failure_aborts_before_any_task simEnvNoDir simWorld
    ⟨"open /nowhere: no such file or directory"⟩ (by decide) rfl).1⟩

/-- C6: when `--out` is given, at least one worker runs and the listing is
`dir`, the tasks `main` has pushed onto `processImageChan` are at every
moment an initial segment of, and from the end of the feeding loop on equal
to, the listing without its directory entries, in listing order, one task per
remaining entry, carrying the entry's name, the absolute path of
`inDir/name` and the absolute output root; and `main` does get to the end of
the loop with exactly these tasks pushed. -/
theorem C6_tasks_pushed_are_the_regular_entries {σ : Type} (env : Env σ) (w : σ)
    (dir : List FileInfo) (hout : env.flagOutDir ≠ "") (hcpu : 0 < env.numCPU)
    (hdir : env.ioutilReadDir w env.flagInDir = .ok dir) :
    (∀ s, Reachable env w s →
      (∃ more, s.sent ++ more =
        (dir.filter (fun fi => !fi.IsDir)).map (fun fi =>
          (⟨fi.Name, env.filepathAbs (env.sys.filepathJoin env.flagInDir fi.Name),
            env.filepathAbs env.flagOutDir⟩ : processImageArgs))) ∧
      (s.main.fed = true → s.sent =
        (dir.filter (fun fi => !fi.IsDir)).map (fun fi =>
          (⟨fi.Name, env.filepathAbs (env.sys.filepathJoin env.flagInDir fi.Name),
            env.filepathAbs env.flagOutDir⟩ : processImageArgs)))) ∧
    (∃ s, Reachable env w s ∧ s.main = .closeTasks ∧ s.exit = none ∧ s.sent =
        (dir.filter (fun fi => !fi.IsDir)).map (fun fi =>
          (⟨fi.Name, env.filepathAbs (env.sys.filepathJoin env.flagInDir fi.Name),
            env.filepathAbs env.flagOutDir⟩ : processImageArgs))) := by
  refine ⟨fun s hs => ?_, feeding_completes env w dir hout hcpu hdir⟩
  have hI := feedInv_reachable env w dir hdir s hs
  refine ⟨?_, hI.fed⟩
  cases hm : s.main with
  | checkOut => exact ⟨_, by rw [(hI.early (by rw [hm]; rfl)).sent_nil]; rfl⟩
  | setup => exact ⟨_, by rw [(hI.early (by rw [hm]; rfl)).sent_nil]; rfl⟩
  | spawn i => exact ⟨_, by rw [(hI.early (by rw [hm]; rfl)).sent_nil]; rfl⟩
  | spawnCollector => exact ⟨_, by rw [(hI.early (by rw [hm]; rfl)).sent_nil]; rfl⟩
  | readDir => exact ⟨_, by rw [(hI.early (by rw [hm]; rfl)).sent_nil]; rfl⟩
  | feed rest => exact ⟨_, hI.feeding rest hm⟩
  | closeTasks => exact ⟨[], by rw [hI.fed (by rw [hm]; rfl)]; simp [tasksOf, mkTask]⟩
  | closeErrs => exact ⟨[], by rw [hI.fed (by rw [hm]; rfl)]; simp [tasksOf, mkTask]⟩
  | wait => exact ⟨[], by rw [hI.fed (by rw [hm]; rfl)]; simp [tasksOf, mkTask]⟩
  | report => exact ⟨[], by rw [hI.fed (by rw [hm]; rfl)]; simp [tasksOf, mkTask]⟩

/-- C6, witness: over `/in`, holding the directory `sub` and the file `c.txt`,
the one task pushed is the one for `c.txt`. -/
theorem C6_tasks_pushed_are_the_regular_entries_witness :
    simEnv.flagOutDir ≠ "" ∧ 0 < simEnv.numCPU ∧
    ∃ s, Reachable simEnv simWorld s ∧ s.main = .closeTasks ∧ s.exit = none ∧
      s.sent = [⟨"c.txt", "/in/c.txt", "/out"⟩] := by
  obtain ⟨s, h1, h2, h3, h4⟩ := (C6_tasks_pushed_are_the_regular_entries simEnv simWorld
    [⟨"sub", true⟩, ⟨"c.txt", false⟩] (by decide) (by decide) rfl).2
  exact ⟨by decide, by decide, s, h1, h2, h3, h4.trans (by decide)⟩

end Process

end Imgts2dtree
